import Mathlib

/-!
Verification of the career-gap-architect request pipeline.

This file gives a shallow embedding, in Lean 4, of the core of the
career-gap-architect application (an Express/TypeScript service) and proves
properties of it:

* the markdown-list truncation used to normalize AI output
  (`apps/api/src/services/analysisService.ts`, rewritten variant);
* the JSON extraction/validation of model responses;
* the SHA-256 content fingerprint used as cache key (`apps/api/src/index.ts`);
* the two rate-limiter middleware variants (in-memory and Redis-backed);
* the AI gateway with retry and model fallback;
* the `POST /api/gap-analysis` orchestrator with its two cache tiers.

JavaScript side effects (network calls, the clock, Redis/Postgres stores)
are modelled by explicit environments; machine behaviour (e.g. `Math.round`,
`Array.prototype.sort` stability, truthiness) is translated where it matters
and documented at the definition.
-/

namespace CareerGap

/-! ## Character-level line utilities

`text.split('\n')` and `array.join('\n')` from JavaScript, modelled on
`List Char` so that the split/join round trip is provable.  For a separator
that is a single character, JavaScript `split` cuts at every occurrence and
keeps empty pieces, exactly as below. -/

/-- The newline character used by the markdown-list post-processing. -/
def nlChar : Char := Char.ofNat 10

/-- Split a character list at every newline; mirrors `String.split('\n')`
(`"".split('\n')` is `[""]`, separators at the ends produce empty pieces). -/
def splitNlC : List Char → List (List Char)
  | [] => [[]]
  | c :: cs =>
    match splitNlC cs with
    | [] => [[]]
    | h :: t => if c = nlChar then [] :: h :: t else (c :: h) :: t

/-- Join character lists with a newline between consecutive pieces; mirrors
`Array.prototype.join('\n')`. -/
def joinNlC : List (List Char) → List Char
  | [] => []
  | x :: xs =>
    match xs with
    | [] => x
    | _ :: _ => x ++ nlChar :: joinNlC xs

/-- `text.split('\n')` at the `String` level. -/
def linesOf (s : String) : List String :=
  (splitNlC s.data).map (fun cs => String.mk cs)

/-- `lines.join('\n')` at the `String` level. -/
def joinNl (ls : List String) : String :=
  String.mk (joinNlC (ls.map String.data))

/-! ## String utilities

JavaScript string primitives (`trim`, `startsWith`, `toLowerCase`,
`includes`, `substring`) modelled at the character-list level, so that
every definition evaluates inside the kernel.  JavaScript operates on
UTF-16 code units and trims the full Unicode whitespace class; the inputs
relevant here are plain text, for which code points and
`Char.isWhitespace` agree with it. -/

/-- `s.trim()`. -/
def jsTrim (s : String) : String :=
  String.mk (((s.data.dropWhile Char.isWhitespace).reverse.dropWhile
    Char.isWhitespace).reverse)

/-- `s.startsWith(pre)`. -/
def strStartsWith (s pre : String) : Bool :=
  pre.data.isPrefixOf s.data

/-- `s.toLowerCase()` (ASCII letters; the keyword lists it is applied to
are ASCII). -/
def jsToLowerCase (s : String) : String :=
  String.mk (s.data.map (fun c =>
    if 65 ≤ c.toNat && c.toNat ≤ 90 then Char.ofNat (c.toNat + 32) else c))

/-- Does `pat` occur as a contiguous run inside `cs`? -/
def includesFrom (pat : List Char) : List Char → Bool
  | [] => pat.isPrefixOf []
  | c :: cs => pat.isPrefixOf (c :: cs) || includesFrom pat cs

/-- `s.includes(pat)`. -/
def strIncludes (s pat : String) : Bool :=
  includesFrom pat.data s.data

/-- `s.substring(0, n)` / `s.slice(0, n)` (returns the first `n`
characters). -/
def strTake (s : String) (n : Nat) : String :=
  String.mk (s.data.take n)

/-- `s.length` as a character count. -/
def strLength (s : String) : Nat :=
  s.data.length

/-! ## Markdown list lines

`truncateMarkdownList` (rewritten `analysisService.ts`) classifies a line as
a list item when its trimmed form starts with `"- "` or matches the regular
expression `^\d+\.` (one or more digits followed by a dot).  Because the
digit class backtracks, that regular expression matches exactly when the
maximal leading digit run is non-empty and is immediately followed by a
dot. -/

/-- Does `line.trim()` match `^\d+\.`? -/
def startsNumbered (t : String) : Bool :=
  let ds := t.data.takeWhile Char.isDigit
  !ds.isEmpty && ['.'].isPrefixOf (t.data.drop ds.length)

/-- `line.trim().startsWith('- ') || /^\d+\./.test(line.trim())` from
`truncateMarkdownList`. -/
def isListItemLine (line : String) : Bool :=
  let t := jsTrim line
  strStartsWith t "- " || startsNumbered t

/-- The list items of a formatted field: the lines that the truncation loop
pushes onto `listItems`. -/
def listItemsOf (text : String) : List String :=
  (linesOf text).filter isListItemLine

/-- The header/preamble of a formatted field: the lines before the first
list item, which the truncation loop collects into `headerLines`. -/
def headerLinesOf (text : String) : List String :=
  (linesOf text).takeWhile (fun l => !isListItemLine l)

namespace Rewritten

/-!
Embedding of the rewritten analysis service (`src/unnamed/part_001`),
whose `validateAndFormatResult` post-processes `steps` and
`interviewQuestions` with `truncateMarkdownList`.
-/

/-- One iteration of the `for (const line of lines)` loop of
`truncateMarkdownList`: the accumulator is `(headerLines, listItems)`. -/
def truncStep (acc : List String × List String) (line : String) :
    List String × List String :=
  if isListItemLine line then (acc.1, acc.2 ++ [line])
  else if acc.2.isEmpty then (acc.1 ++ [line], acc.2)
  else acc

/-- `truncateMarkdownList(text, count)` from the rewritten
`analysisService.ts` (lines 419-433): split into lines, separate leading
header lines from list items, keep the first `count` items, rejoin. -/
def truncateMarkdownList (text : String) (count : Nat) : String :=
  let lines := linesOf text
  let acc := lines.foldl truncStep ([], [])
  joinNl (acc.1 ++ acc.2.take count)

end Rewritten

/-! ## JSON values and `JSON.parse`

The AI gateway extracts a JSON object from the model's text output and
parses it with `JSON.parse`.  `JValue` is the value domain; numeric
literals are kept as their source text (none of the verified properties
inspects numbers). -/

inductive JValue where
  | jnull
  | jbool (b : Bool)
  | jnum (lit : String)
  | jstr (s : String)
  | jarr (elems : List JValue)
  | jobj (fields : List (String × JValue))

/-- Opening brace. -/
def lbraceChar : Char := Char.ofNat 123
/-- Closing brace. -/
def rbraceChar : Char := Char.ofNat 125
/-- Double quote. -/
def quoteChar : Char := Char.ofNat 34
/-- Backslash. -/
def bslashChar : Char := Char.ofNat 92
/-- Opening square bracket. -/
def lbrackChar : Char := Char.ofNat 91
/-- Closing square bracket. -/
def rbrackChar : Char := Char.ofNat 93

/-- JSON insignificant whitespace. -/
def jsonWs (c : Char) : Bool :=
  c = ' ' || c = Char.ofNat 9 || c = nlChar || c = Char.ofNat 13

def skipWs : List Char → List Char
  | [] => []
  | c :: cs => if jsonWs c then skipWs cs else c :: cs

def hexVal (c : Char) : Option Nat :=
  if c.isDigit then some (c.toNat - 48)
  else if 97 ≤ c.toNat && c.toNat ≤ 102 then some (c.toNat - 87)
  else if 65 ≤ c.toNat && c.toNat ≤ 70 then some (c.toNat - 55)
  else none

/-- Single-character JSON string escapes. -/
def escChar (c : Char) : Option Char :=
  if c = quoteChar then some quoteChar
  else if c = bslashChar then some bslashChar
  else if c = '/' then some '/'
  else if c = 'b' then some (Char.ofNat 8)
  else if c = 'f' then some (Char.ofNat 12)
  else if c = 'n' then some nlChar
  else if c = 'r' then some (Char.ofNat 13)
  else if c = 't' then some (Char.ofNat 9)
  else none

/-- Parse the body of a JSON string after the opening quote; returns the
decoded characters and the input after the closing quote.  (Surrogate-pair
`\u` escapes are decoded code unit by code unit; no verified property
involves them.) -/
def parseStringBody : Nat → List Char → Option (List Char × List Char)
  | 0, _ => none
  | _, [] => none
  | fuel + 1, c :: cs =>
    if c = quoteChar then some ([], cs)
    else if c = bslashChar then
      match cs with
      | [] => none
      | e :: rest =>
        if e = 'u' then
          match rest with
        | h1 :: h2 :: h3 :: h4 :: rest' =>
            match hexVal h1, hexVal h2, hexVal h3, hexVal h4 with
            | some a, some b, some c2, some d =>
              (parseStringBody fuel rest').map
                (fun p => (Char.ofNat (((a * 16 + b) * 16 + c2) * 16 + d) :: p.1, p.2))
            | _, _, _, _ => none
          | _ => none
        else
          match escChar e with
          | some ec => (parseStringBody fuel rest).map (fun p => (ec :: p.1, p.2))
          | none => none
    else (parseStringBody fuel cs).map (fun p => (c :: p.1, p.2))

/-- Parse a JSON numeric literal, returning its source characters. -/
def parseNumberLit (cs : List Char) : Option (List Char × List Char) :=
  let signed := match cs with
    | c :: rest => if c = '-' then ([c], rest) else (([] : List Char), cs)
    | [] => ([], [])
  let sign := signed.1
  let cs1 := signed.2
  match cs1 with
  | [] => none
  | d :: _ =>
    if !d.isDigit then none
    else
      let ipart := cs1.takeWhile Char.isDigit
      let cs2 := cs1.dropWhile Char.isDigit
      if ipart.length > 1 && d = '0' then none
      else
        let fracd := match cs2 with
          | p :: rest =>
            if p = '.' then
              match rest with
              | e :: _ =>
                if e.isDigit then
                  some (p :: rest.takeWhile Char.isDigit, rest.dropWhile Char.isDigit)
                else none
              | [] => none
            else some ([], cs2)
          | [] => some ([], cs2)
        match fracd with
        | none => none
        | some (fpart, cs3) =>
          let expd := match cs3 with
            | p :: rest =>
              if p = 'e' || p = 'E' then
                let signede := match rest with
                  | q :: rest' => if q = '+' || q = '-' then ([q], rest') else (([] : List Char), rest)
                  | [] => ([], [])
                match signede.2 with
                | e :: _ =>
                  if e.isDigit then
                    some (p :: signede.1 ++ signede.2.takeWhile Char.isDigit,
                          signede.2.dropWhile Char.isDigit)
                  else none
                | [] => none
              else some ([], cs3)
            | [] => some ([], cs3)
          match expd with
          | none => none
          | some (epart, cs4) => some (sign ++ ipart ++ fpart ++ epart, cs4)

/-- The grammar production a `parseJ` call is working on: a value, the
inside of an array after `[`, the elements of a non-empty array, the
inside of an object after the opening brace, or the members of a
non-empty object. -/
inductive JMode where
  | value
  | arrayRest
  | arrayElems
  | objRest
  | objMembers

/-- The result of a `parseJ` call, tagged by production. -/
inductive JOut where
  | val (v : JValue) (rest : List Char)
  | elems (es : List JValue) (rest : List Char)
  | members (fs : List (String × JValue)) (rest : List Char)

/-- Recursive-descent JSON parser (fuel-bounded and structural in the
fuel, so that it evaluates inside the kernel), modelling `JSON.parse`. -/
def parseJ : Nat → JMode → List Char → Option JOut
  | 0, _, _ => none
  | fuel + 1, .value, cs =>
    match skipWs cs with
    | [] => none
    | c :: rest =>
      if c = quoteChar then
        (parseStringBody (fuel + 1) rest).map
          (fun p => JOut.val (JValue.jstr (String.mk p.1)) p.2)
      else if c = lbrackChar then parseJ fuel .arrayRest rest
      else if c = lbraceChar then parseJ fuel .objRest rest
      else
        match c :: rest with
        | 't' :: 'r' :: 'u' :: 'e' :: r => some (.val (JValue.jbool true) r)
        | 'f' :: 'a' :: 'l' :: 's' :: 'e' :: r => some (.val (JValue.jbool false) r)
        | 'n' :: 'u' :: 'l' :: 'l' :: r => some (.val JValue.jnull r)
        | other =>
          (parseNumberLit other).map
            (fun p => JOut.val (JValue.jnum (String.mk p.1)) p.2)
  | fuel + 1, .arrayRest, cs =>
    match skipWs cs with
    | c :: rest =>
      if c = rbrackChar then some (.val (JValue.jarr []) rest)
      else
        match parseJ fuel .arrayElems (c :: rest) with
        | some (.elems es r) => some (.val (JValue.jarr es) r)
        | _ => none
    | [] => none
  | fuel + 1, .arrayElems, cs =>
    match parseJ fuel .value cs with
    | some (.val v rest) =>
      (match skipWs rest with
       | c :: rest' =>
         if c = ',' then
           match parseJ fuel .arrayElems rest' with
           | some (.elems es r) => some (.elems (v :: es) r)
           | _ => none
         else if c = rbrackChar then some (.elems [v] rest')
         else none
       | [] => none)
    | _ => none
  | fuel + 1, .objRest, cs =>
    match skipWs cs with
    | c :: rest =>
      if c = rbraceChar then some (.val (JValue.jobj []) rest)
      else
        match parseJ fuel .objMembers (c :: rest) with
        | some (.members fs r) => some (.val (JValue.jobj fs) r)
        | _ => none
    | [] => none
  | fuel + 1, .objMembers, cs =>
    match skipWs cs with
    | c :: rest =>
      if c = quoteChar then
        match parseStringBody (fuel + 1) rest with
        | none => none
        | some (key, rest1) =>
          match skipWs rest1 with
          | d :: rest2 =>
            if d = ':' then
              match parseJ fuel .value rest2 with
              | some (.val v rest3) =>
                (match skipWs rest3 with
                 | e :: rest4 =>
                   if e = ',' then
                     match parseJ fuel .objMembers rest4 with
                     | some (.members fs r) =>
                       some (.members ((String.mk key, v) :: fs) r)
                     | _ => none
                   else if e = rbraceChar then
                     some (.members [(String.mk key, v)] rest4)
                   else none
                 | [] => none)
              | _ => none
            else none
          | [] => none
      else none
    | [] => none

/-- `JSON.parse`: parse a complete JSON document (trailing whitespace
allowed, nothing else). -/
def jsonParse (s : String) : Option JValue :=
  match parseJ (2 * s.data.length + 2) .value s.data with
  | some (.val v rest) => if skipWs rest = [] then some v else none
  | _ => none

/-- Property access `obj.name` on a parsed JSON object.  `JSON.parse`
keeps the last of duplicate keys, hence the fold from the left taking the
latest match. -/
def JValue.getField (v : JValue) (name : String) : Option JValue :=
  match v with
  | .jobj fields => fields.foldl (fun acc p => if p.1 = name then some p.2 else acc) none
  | _ => none

instance {ε α : Type} [DecidableEq ε] [DecidableEq α] : DecidableEq (Except ε α)
  | .ok x, .ok y =>
    if h : x = y then .isTrue (congrArg Except.ok h)
    else .isFalse (fun hh => h (Except.ok.inj hh))
  | .error x, .error y =>
    if h : x = y then .isTrue (congrArg Except.error h)
    else .isFalse (fun hh => h (Except.error.inj hh))
  | .ok _, .error _ => .isFalse (fun hh => Except.noConfusion hh)
  | .error _, .ok _ => .isFalse (fun hh => Except.noConfusion hh)

/-! ## Data model (`apps/api/src/types/analysis.ts`) -/

/-- `AnalysisResult`: missing skills plus two markdown-formatted text
fields. -/
structure AnalysisResult where
  missingSkills : List String
  steps : String
  interviewQuestions : String
deriving DecidableEq, Repr

/-- `AnalysisRequest`: the validated (sanitized) request pair. -/
structure AnalysisRequest where
  resume : String
  jobDescription : String
deriving DecidableEq, Repr

/-! ## Validators (`apps/api/src/utils/validators.ts`) -/

/-- Maximum resume length accepted by the request schema. -/
def MAX_RESUME_LENGTH : Nat := 50000
/-- Maximum job-description length accepted by the request schema. -/
def MAX_JOB_DESCRIPTION_LENGTH : Nat := 20000

/-- Drop `<...>` tag spans, keeping text content.

Modelled from the spec: `sanitizeInput` calls the external DOMPurify
library with `ALLOWED_TAGS: []`, `ALLOWED_ATTR: []`, `KEEP_CONTENT: true`
("HTML-tag stripping", §6 "HTML-sanitized"); the library itself is not
part of this repository, so tag removal is modelled as deleting every
`<`..`>` span.  The argument `inTag` is the scanner state. -/
def stripTagsAux : Bool → List Char → List Char
  | _, [] => []
  | true, c :: rest =>
    if c = '>' then stripTagsAux false rest else stripTagsAux true rest
  | false, c :: rest =>
    if c = '<' then stripTagsAux true rest else c :: stripTagsAux false rest

/-- `sanitizeInput`: strip markup, then `.trim()`. -/
def sanitizeInput (s : String) : String :=
  jsTrim (String.mk (stripTagsAux false s.data))

/-- One field of `analysisRequestSchema`: `z.string().min(10).max(maxLen)
.transform(sanitizeInput).refine(len ≥ 10)`.  Issue messages are
abbreviated; only their presence matters to the pipeline. -/
def parseRequestField (v : JValue) (name : String) (maxLen : Nat) :
    Except (List String) String :=
  match v.getField name with
  | some (.jstr raw) =>
    let issues :=
      (if strLength raw < 10 then [name ++ ": too short"] else []) ++
      (if maxLen < strLength raw then [name ++ ": exceeds maximum length"] else [])
    if issues.isEmpty then
      let s := sanitizeInput raw
      if strLength s < 10 then
        .error [name ++ ": must contain actual content, not just whitespace"]
      else .ok s
    else .error issues
  | some _ => .error [name ++ ": expected string"]
  | none => .error [name ++ ": required"]

/-- Issues of a field check (empty for a success). -/
def fieldIssues : Except (List String) String → List String
  | .error es => es
  | .ok _ => []

/-- `validateAnalysisRequest`: `analysisRequestSchema.parse`, collecting
the issues of both fields. -/
def validateAnalysisRequest (v : JValue) : Except (List String) AnalysisRequest :=
  match v with
  | .jobj _ =>
    match parseRequestField v "resume" MAX_RESUME_LENGTH,
          parseRequestField v "jobDescription" MAX_JOB_DESCRIPTION_LENGTH with
    | .ok r, .ok j => .ok ⟨r, j⟩
    | e1, e2 => .error (fieldIssues e1 ++ fieldIssues e2)
  | _ => .error ["expected object"]

/-- Read `missingSkills` as an array of strings (the Zod
`z.array(z.string())` check). -/
def asStringArray : JValue → Option (List String)
  | .jarr es => es.mapM (fun e => match e with | .jstr s => some s | _ => none)
  | _ => none

/-- Read a plain string field (the Zod `z.string()` check). -/
def asString : JValue → Option String
  | .jstr s => some s
  | _ => none

/-- `validateAnalysisResult`: `analysisResultSchema.parse` — an object with
`missingSkills : string[]`, `steps : string`, `interviewQuestions :
string`; extra keys are stripped. -/
def validateAnalysisResult (v : JValue) : Except (List String) AnalysisResult :=
  match v with
  | .jobj _ =>
    match (v.getField "missingSkills").bind asStringArray,
          (v.getField "steps").bind asString,
          (v.getField "interviewQuestions").bind asString with
    | some ms, some st, some iq => .ok ⟨ms, st, iq⟩
    | ms?, st?, iq? =>
      .error ((if ms?.isNone then ["missingSkills: invalid"] else []) ++
              (if st?.isNone then ["steps: invalid"] else []) ++
              (if iq?.isNone then ["interviewQuestions: invalid"] else []))
  | _ => .error ["expected object"]

/-- `validateAndFormatResult` of the rewritten service
(`src/unnamed/part_001`, lines 440-484): Zod validation, then the
"exactly 3" post-processing of both text fields.  (The non-Zod fallback
branch of the source is unreachable here because the embedded validator
only throws Zod-style issue lists.) -/
def Rewritten.validateAndFormatResult (parsed : JValue) :
    Except (List String) AnalysisResult :=
  match validateAnalysisResult parsed with
  | .ok va =>
    .ok { va with
          steps := Rewritten.truncateMarkdownList va.steps 3,
          interviewQuestions := Rewritten.truncateMarkdownList va.interviewQuestions 3 }
  | .error issues => .error issues

namespace Svc

/-!
Embedding of `apps/api/src/services/analysisService.ts` — the AI gateway
with retry, backoff and model fallback.  External effects (the fetch call,
the race against the timeout timer, `Date.now()`) are supplied by a
`GatewayEnv`: `outcome model i` is what the `i`-th attempt against `model`
observes, and `elapsedAt model i` is `Date.now() - startTime` at the top of
that loop iteration (it accounts for the backoff sleeps, whose exact
durations — exponential delay plus random jitter — do not affect any result
below).
-/

/-- `RetryConfig` from `analysisService.ts`. -/
structure RetryConfig where
  maxAttempts : Nat
  baseDelayMs : Nat
  maxJitterMs : Nat
  timeoutMs : Nat
deriving DecidableEq, Repr

/-- `DEFAULT_RETRY_CONFIG`. -/
def DEFAULT_RETRY_CONFIG : RetryConfig :=
  { maxAttempts := 3, baseDelayMs := 1000, maxJitterMs := 500, timeoutMs := 30000 }

/-- `FREE_MODELS`: the candidate models, in configured order. -/
def FREE_MODELS : List String :=
  ["arcee-ai/trinity-large-preview:free",
   "stepfun/step-3.5-flash:free",
   "upstage/solar-pro-3:free",
   "liquid/lfm-2.5-1.2b-thinking:free"]

/-- One entry of the module-level `modelCache` health map. -/
structure ModelHealth where
  isWorking : Bool
  lastChecked : Nat
deriving DecidableEq, Repr

/-- The error classes of `utils/errors.ts`, as a tagged union:
`AIServiceError` (message, code, optional HTTP status, retryable flag),
`ParseError`, `ValidationError`, `TimeoutError`, plus generic thrown
errors (e.g. a rejected fetch). -/
inductive SvcError where
  | aiService (message code : String) (statusCode : Option Nat) (retryable : Bool)
  | parse (message details : String)
  | validation (message : String) (details : List String)
  | timeout (message : String) (timeoutMs : Nat)
  | generic (message : String)
deriving DecidableEq, Repr

/-- `error.message`. -/
def SvcError.message : SvcError → String
  | .aiService m _ _ _ => m
  | .parse m _ => m
  | .validation m _ => m
  | .timeout m _ => m
  | .generic m => m

/-- `error instanceof AIServiceError ? error.statusCode : undefined`. -/
def SvcError.aiStatusCode : SvcError → Option Nat
  | .aiService _ _ sc _ => sc
  | _ => none

/-- `error instanceof AIServiceError && !error.retryable`. -/
def SvcError.nonRetryableAI : SvcError → Bool
  | .aiService _ _ _ r => !r
  | _ => false

/-- `getModelsToTry`: the preferred model first, then the other
`FREE_MODELS` in order — stably re-sorted so that models cached as
not-working sink to the end.  `Array.prototype.sort` is stable and the
comparator `(bWorking ? 1 : 0) - (aWorking ? 1 : 0)` is two-valued, so the
sort is exactly this stable partition. -/
def getModelsToTry (modelCache : String → Option ModelHealth)
    (preferredModel : String) : List String :=
  let models := preferredModel :: FREE_MODELS.filter (fun m => m ≠ preferredModel)
  let working := fun m => ((modelCache m).map ModelHealth.isWorking).getD true
  models.filter working ++ models.filter (fun m => !working m)

/-- `markModelStatus`, as a functional update of the health map. -/
def markModelStatus (cache : String → Option ModelHealth) (model : String)
    (isWorking : Bool) (now : Nat) : String → Option ModelHealth :=
  fun m => if m = model then some ⟨isWorking, now⟩ else cache m

/-- The lowercase network-failure keywords of `isRetryableError`. -/
def NETWORK_ERROR_KEYWORDS : List String :=
  ["fetch", "network", "timeout", "econnrefused", "enotfound", "etimedout"]

/-- `isRetryableError(error, statusCode)`.  The two status tests are
guarded by JavaScript truthiness of `statusCode` (0 or `undefined` fall
through to the message check, which defaults to retryable). -/
def isRetryableError (message : Option String) (statusCode : Option Nat) : Bool :=
  let sc := statusCode.getD 0
  if sc ≠ 0 ∧ 400 ≤ sc ∧ sc < 500 then false
  else if sc ≠ 0 ∧ 500 ≤ sc then true
  else
    let errorMessage := jsToLowerCase (message.getD "")
    if NETWORK_ERROR_KEYWORDS.any (fun kw => strIncludes errorMessage kw) then true
    else true

/-- The span matched by `content.match(/\{[\s\S]*\})/`: from the first
opening brace to the last closing brace, when the latter comes after the
former (greedy match; leftmost start). -/
def extractJsonSpan (s : String) : Option String :=
  let cs := s.data
  match cs.findIdx? (fun c => c = lbraceChar) with
  | none => none
  | some i =>
    match cs.reverse.findIdx? (fun c => c = rbraceChar) with
    | none => none
    | some jr =>
      let j := cs.length - 1 - jr
      if i < j then some (String.mk ((cs.drop i).take (j - i + 1))) else none

/-- `parseAIResponse` (`analysisService.ts` lines 343-374): extract the
JSON span and `JSON.parse` it; failures carry the first 200 characters of
the raw content. -/
def parseAIResponse (content : String) : Except SvcError JValue :=
  match extractJsonSpan content with
  | none => .error (.parse "No JSON found in AI response" (strTake content 200))
  | some jsonStr =>
    match jsonParse jsonStr with
    | some v => .ok v
    | none => .error (.parse "Failed to parse JSON" (strTake content 200))

/-- `validateAndFormatResult` of `apps/api/src/services/analysisService.ts`
(lines 381-414): Zod validation only — unlike the rewritten variant, this
one performs no markdown-list truncation. -/
def validateAndFormatResult (parsed : JValue) : Except SvcError AnalysisResult :=
  match validateAnalysisResult parsed with
  | .ok va => .ok va
  | .error issues =>
    .error (.validation "AI response validation failed - invalid structure" issues)

/-- What one attempt observes from the raced
`fetch('https://openrouter.ai/...')`. -/
inductive AttemptOutcome where
  | reject (message : String)
  | timedOut
  | response (status : Nat) (statusText : String) (content : Option String)
deriving DecidableEq, Repr

/-- The external world seen by the gateway (see the namespace comment). -/
structure GatewayEnv where
  outcome : String → Nat → AttemptOutcome
  elapsedAt : String → Nat → Nat
  now : Nat

/-- The body of one `try` block of `callAIServiceWithModel`: perform the
raced fetch, classify a non-ok status via `isRetryableError`, reject empty
bodies, otherwise parse and validate. -/
def runAttemptBody (env : GatewayEnv) (model : String) (config : RetryConfig)
    (attempt : Nat) : Except SvcError AnalysisResult :=
  match env.outcome model attempt with
  | .reject msg => .error (.generic msg)
  | .timedOut =>
    .error (.timeout ("Request timed out after " ++ toString config.timeoutMs ++ "ms")
      config.timeoutMs)
  | .response status statusText content =>
    if 200 ≤ status ∧ status < 300 then
      match content with
      | none => .error (.aiService "AI service returned empty response" "EMPTY_RESPONSE" none true)
      | some c =>
        match parseAIResponse c with
        | .error e => .error e
        | .ok parsed => validateAndFormatResult parsed
    else
      .error (.aiService ("AI service returned " ++ toString status ++ ": " ++ statusText)
        "AI_SERVICE_ERROR" (some status) (isRetryableError none (some status)))

/-- The attempt loop of `callAIServiceWithModel` (lines 197-336).  `fuel`
is `config.maxAttempts - attempt`; the second result component counts the
attempts that actually ran (consumed an outcome). -/
def runModelGo (env : GatewayEnv) (model : String) (config : RetryConfig) :
    Nat → Nat → Option SvcError → Except SvcError AnalysisResult × Nat
  | 0, attempt, lastError =>
    (.error (lastError.getD
      (.aiService "All retry attempts failed" "MAX_RETRIES_EXCEEDED" none false)), attempt)
  | fuel + 1, attempt, _lastError =>
    let elapsed := env.elapsedAt model attempt
    if config.timeoutMs ≤ elapsed then
      (.error (.timeout ("Operation timed out after " ++ toString elapsed ++
        "ms (max: " ++ toString config.timeoutMs ++ "ms)") config.timeoutMs), attempt)
    else
      match runAttemptBody env model config attempt with
      | .ok r => (.ok r, attempt + 1)
      | .error e =>
        if SvcError.nonRetryableAI e then (.error e, attempt + 1)
        else if attempt = config.maxAttempts - 1 then (.error e, attempt + 1)
        else runModelGo env model config fuel (attempt + 1) (some e)

/-- `callAIServiceWithModel`. -/
def callAIServiceWithModel (env : GatewayEnv) (model : String)
    (config : RetryConfig) : Except SvcError AnalysisResult × Nat :=
  runModelGo env model config config.maxAttempts 0 none

/-- The observable outcome of `callAIService`: the returned result or
thrown error, the final model-health map, and the ordered trace of
`(model, attempts consumed)` pairs. -/
structure GwRun where
  result : Except SvcError AnalysisResult
  modelCache : String → Option ModelHealth
  trace : List (String × Nat)

/-- The `for (const model of modelsToTry)` loop of `callAIService`
(lines 138-186): success marks the model working and returns; a 404 or a
non-retryable `AIServiceError` marks it not working; every failure moves
on to the next candidate, and exhaustion throws the aggregate
`ALL_MODELS_FAILED` error carrying the last message. -/
def runModels (env : GatewayEnv) (config : RetryConfig) :
    List String → (String → Option ModelHealth) → Option SvcError →
    List (String × Nat) → GwRun
  | [], cache, lastError, tr =>
    ⟨.error (.aiService ("All available models failed. Last error: " ++
        ((lastError.map SvcError.message).getD "Unknown"))
      "ALL_MODELS_FAILED" none false), cache, tr⟩
  | m :: rest, cache, lastError, tr =>
    match callAIServiceWithModel env m config with
    | (.ok r, n) => ⟨.ok r, markModelStatus cache m true env.now, tr ++ [(m, n)]⟩
    | (.error e, n) =>
      let cache' :=
        if e.aiStatusCode = some 404 then markModelStatus cache m false env.now
        else if e.nonRetryableAI then markModelStatus cache m false env.now
        else cache
      runModels env config rest cache' (some e) (tr ++ [(m, n)])

/-- `callAIService(resume, jobDescription, apiKey, preferredModel,
config)`.  `resume`, `jobDescription` and `apiKey` only feed the prompt
and the request headers, which the environment summarises in its
outcomes.  The caller in `index.ts` uses the defaults
`preferredModel = FREE_MODELS[0]` and `config = DEFAULT_RETRY_CONFIG`. -/
def callAIService (env : GatewayEnv) (resume jobDescription apiKey : String)
    (preferredModel : String) (config : RetryConfig)
    (modelCache : String → Option ModelHealth) : GwRun :=
  runModels env config (getModelsToTry modelCache preferredModel) modelCache none []

end Svc

/-! ## SHA-256 and the content fingerprint

`getCacheKey` (`apps/api/src/index.ts` lines 68-71) hashes
`resume + '|' + jobDescription` with Node's `crypto.createHash('sha256')`
and hex-encodes the digest.  SHA-256 is embedded below following
FIPS 180-4; its round constants are computed (fractional parts of the cube
and square roots of the first primes) rather than transcribed. -/

/-- 2^32. -/
def pow32 : Nat := 4294967296

/-- Right rotation of a 32-bit word. -/
def rotr32 (n x : Nat) : Nat :=
  ((x >>> n) ||| (x <<< (32 - n))) % pow32

def smallSigma0 (x : Nat) : Nat := (rotr32 7 x) ^^^ (rotr32 18 x) ^^^ (x >>> 3)
def smallSigma1 (x : Nat) : Nat := (rotr32 17 x) ^^^ (rotr32 19 x) ^^^ (x >>> 10)
def bigSigma0 (x : Nat) : Nat := (rotr32 2 x) ^^^ (rotr32 13 x) ^^^ (rotr32 22 x)
def bigSigma1 (x : Nat) : Nat := (rotr32 6 x) ^^^ (rotr32 11 x) ^^^ (rotr32 25 x)

/-- Binary search step for the integer cube root. -/
def icbrtGo (n : Nat) : Nat → Nat → Nat → Nat
  | 0, lo, _ => lo
  | fuel + 1, lo, hi =>
    if hi ≤ lo + 1 then lo
    else
      let mid := (lo + hi) / 2
      if mid * mid * mid ≤ n then icbrtGo n fuel mid hi else icbrtGo n fuel lo mid

/-- Integer cube root (floor). -/
def icbrt (n : Nat) : Nat := icbrtGo n 200 0 (n + 1)

/-- The first 64 primes. -/
def first64Primes : List Nat :=
  [2, 3, 5, 7, 11, 13, 17, 19, 23, 29, 31, 37, 41, 43, 47, 53,
   59, 61, 67, 71, 73, 79, 83, 89, 97, 101, 103, 107, 109, 113, 127, 131,
   137, 139, 149, 151, 157, 163, 167, 173, 179, 181, 191, 193, 197, 199, 211, 223,
   227, 229, 233, 239, 241, 251, 257, 263, 269, 271, 277, 281, 283, 293, 307, 311]

/-- SHA-256 round constants: the first 32 bits of the fractional parts of
the cube roots of the first 64 primes. -/
def sha256K : List Nat :=
  first64Primes.map (fun p => icbrt (p * 2 ^ 96) % pow32)

/-- SHA-256 initial hash: the first 32 bits of the fractional parts of the
square roots of the first 8 primes. -/
def sha256H0 : List Nat :=
  (first64Primes.take 8).map (fun p => Nat.sqrt (p * 2 ^ 64) % pow32)

/-- UTF-8 encoding of one scalar value. -/
def utf8EncodeChar (c : Char) : List Nat :=
  let n := c.toNat
  if n < 128 then [n]
  else if n < 2048 then [192 + n / 64, 128 + n % 64]
  else if n < 65536 then [224 + n / 4096, 128 + (n / 64) % 64, 128 + n % 64]
  else [240 + n / 262144, 128 + (n / 4096) % 64, 128 + (n / 64) % 64, 128 + n % 64]

/-- UTF-8 encoding of a string, as a byte list. -/
def utf8Encode (s : String) : List Nat :=
  (s.data.map utf8EncodeChar).join

/-- `k` big-endian bytes of `n`. -/
def beBytes : Nat → Nat → List Nat
  | 0, _ => []
  | k + 1, n => beBytes k (n / 256) ++ [n % 256]

/-- SHA-256 padding: `0x80`, zeros to 56 mod 64, then the bit length on 8
bytes. -/
def padMessage (msg : List Nat) : List Nat :=
  let len := msg.length
  let zeros := (64 + 56 - ((len + 1) % 64)) % 64
  msg ++ [128] ++ List.replicate zeros 0 ++ beBytes 8 (len * 8)

/-- Big-endian 32-bit words of a byte list. -/
def toWords : List Nat → List Nat
  | b0 :: b1 :: b2 :: b3 :: rest =>
    (((b0 * 256 + b1) * 256 + b2) * 256 + b3) :: toWords rest
  | _ => []

/-- Split a word list into 16-word blocks. -/
def chunk16 : List Nat → List (List Nat)
  | w0 :: w1 :: w2 :: w3 :: w4 :: w5 :: w6 :: w7 ::
    w8 :: w9 :: w10 :: w11 :: w12 :: w13 :: w14 :: w15 :: rest =>
    [w0, w1, w2, w3, w4, w5, w6, w7, w8, w9, w10, w11, w12, w13, w14, w15] ::
      chunk16 rest
  | _ => []

/-- Extend the message schedule by one word. -/
def scheduleStep (w : List Nat) : List Nat :=
  let i := w.length
  w ++ [(smallSigma1 (w.getD (i - 2) 0) + w.getD (i - 7) 0 +
         smallSigma0 (w.getD (i - 15) 0) + w.getD (i - 16) 0) % pow32]

/-- The 64-word message schedule of a block. -/
def schedule (block : List Nat) : List Nat :=
  (List.range 48).foldl (fun w _ => scheduleStep w) block

/-- One SHA-256 compression round; the state is `[a,b,c,d,e,f,g,h]`. -/
def compressStep (st : List Nat) (kw : Nat × Nat) : List Nat :=
  match st with
  | [a, b, c, d, e, f, g, h] =>
    let ch := (e &&& f) ^^^ ((e ^^^ (pow32 - 1)) &&& g)
    let maj := (a &&& b) ^^^ (a &&& c) ^^^ (b &&& c)
    let t1 := (h + bigSigma1 e + ch + kw.1 + kw.2) % pow32
    let t2 := (bigSigma0 a + maj) % pow32
    [(t1 + t2) % pow32, a, b, c, (d + t1) % pow32, e, f, g]
  | _ => st

/-- Compress one block into the running hash. -/
def compressBlock (h : List Nat) (block : List Nat) : List Nat :=
  let st := (sha256K.zip (schedule block)).foldl compressStep h
  (h.zip st).map (fun p => (p.1 + p.2) % pow32)

/-- SHA-256 of a byte list, as eight 32-bit words. -/
def sha256Words (msg : List Nat) : List Nat :=
  (chunk16 (toWords (padMessage msg))).foldl compressBlock sha256H0

/-- A lowercase hex digit. -/
def hexDigit (n : Nat) : Char :=
  if n < 10 then Char.ofNat (48 + n) else Char.ofNat (87 + n)

/-- Lowercase hex of a 32-bit word. -/
def wordToHex (w : Nat) : List Char :=
  (List.range 8).map (fun i => hexDigit ((w >>> ((7 - i) * 4)) &&& 15))

/-- `crypto.createHash('sha256').update(content).digest('hex')`. -/
def sha256Hex (s : String) : String :=
  String.mk (((sha256Words (utf8Encode s)).map wordToHex).join)

/-- `getCacheKey` (`index.ts` lines 68-71): the hex SHA-256 of
`resume + '|' + jobDescription`. -/
def getCacheKey (resume jobDescription : String) : String :=
  sha256Hex (resume ++ "|" ++ jobDescription)

namespace MemRL

/-!
The in-memory `rateLimitMiddleware` variant (`src/unnamed/part_000`,
lines 12-31): a per-client `{count, windowStart}` entry in a `Map`.  Its
429 response carries only an error message — no `retryAfter` field and no
`Retry-After` header.
-/

/-- `WINDOW_MS`. -/
def WINDOW_MS : Nat := 60 * 1000
/-- `MAX_REQUESTS`. -/
def MAX_REQUESTS : Nat := 60

/-- One `Map` entry. -/
structure RateLimitEntry where
  count : Nat
  windowStart : Nat
deriving DecidableEq, Repr

/-- The middleware's decision: call `next()` or answer 429. -/
inductive Decision where
  | allowed
  | denied429
deriving DecidableEq, Repr

/-- One middleware invocation for a single client: look up the entry at
`now`, reset the window if stale, deny at the cap, else count up.
(`now - windowStart` is non-negative in every reachable state, so the
truncated subtraction agrees with JavaScript.) -/
def step (entry : Option RateLimitEntry) (now : Nat) :
    Decision × Option RateLimitEntry :=
  match entry with
  | none => (.allowed, some ⟨1, now⟩)
  | some e =>
    if WINDOW_MS < now - e.windowStart then (.allowed, some ⟨1, now⟩)
    else if MAX_REQUESTS ≤ e.count then (.denied429, some e)
    else (.allowed, some ⟨e.count + 1, e.windowStart⟩)

/-- A sequence of requests from one client at the given times. -/
def run (times : List Nat) (entry : Option RateLimitEntry) :
    List Decision × Option RateLimitEntry :=
  match times with
  | [] => ([], entry)
  | t :: ts =>
    let s := step entry t
    let rest := run ts s.2
    (s.1 :: rest.1, rest.2)

end MemRL

namespace RedisRL

/-!
The Redis-backed `rateLimitMiddleware` variant (`src/unnamed/part_000`,
lines 73-99), wrapping `rate-limiter-flexible`'s `RateLimiterRedis`
(points 60, duration 60s).  `consume(ip)` resolves inside the quota and
otherwise rejects; per the library's contract the rejection value is a
`RateLimiterRes` carrying `msBeforeNext` on quota exhaustion, and a plain
`Error` — with no `msBeforeNext` field — when the store operation itself
fails.  The middleware's `catch` block does not distinguish the two.
-/

/-- What `rateLimiter.consume(ip)` does: resolve, or reject with a value
whose `msBeforeNext` is present (quota exhausted) or absent (store
failure). -/
inductive ConsumeOutcome where
  | resolved
  | rejected (msBeforeNext : Option Nat)
deriving DecidableEq, Repr

/-- The environment of one invocation: whether the module-level
`rateLimiter` was constructed, and how `consume` behaves. -/
structure Env where
  initialized : Bool
  consume : ConsumeOutcome
deriving DecidableEq, Repr

/-- The middleware's observable outcome.  `allowedDegraded` is the
`!rateLimiter` branch, which logs "Rate limiter not initialized, allowing
request" and calls `next()`; `denied429` answers HTTP 429 with the
`retryAfter` body field and `Retry-After` header. -/
inductive Outcome where
  | allowedDegraded
  | allowed
  | denied429 (retryAfter : Nat)
deriving DecidableEq, Repr

/-- `Math.round(ms / 1000)` for non-negative `ms` (round half up). -/
def jsRoundDiv1000 (ms : Nat) : Nat := (ms + 500) / 1000

/-- `Math.round(rejRes.msBeforeNext / 1000) || 1`: an absent
`msBeforeNext` gives `NaN || 1 = 1`, and a rounded value of `0` is also
replaced by `1`. -/
def retryAfterOf (msBeforeNext : Option Nat) : Nat :=
  match msBeforeNext with
  | none => 1
  | some ms => let r := jsRoundDiv1000 ms; if r = 0 then 1 else r

/-- One invocation of the Redis-variant middleware. -/
def middleware (env : Env) : Outcome :=
  if !env.initialized then .allowedDegraded
  else
    match env.consume with
    | .resolved => .allowed
    | .rejected ms => .denied429 (retryAfterOf ms)

end RedisRL

namespace Handler

/-!
Embedding of the `POST /api/gap-analysis` handler
(`apps/api/src/index.ts` lines 129-386).  The route also installs
`inputValidatorMiddleware`, which runs the same `validateAnalysisRequest`
and answers 400 on failure, so the composite route behaves exactly like
the handler alone.  External state — the raw JSON body, the API key
variable, the clock, the in-memory `cache` map, the Postgres lookups and
the AI gateway — is supplied by a `HandlerEnv`; the `effects` list records
the cache writes in program order.
-/

/-- The model name hard-coded into every response's metadata
(`index.ts` lines 184, 231, 363). -/
def MODEL_LABEL : String := "meta-llama/llama-3.1-8b-instruct:free"

/-- `CACHE_TTL` of the in-memory tier (one hour in ms). -/
def CACHE_TTL : Nat := 1000 * 60 * 60

/-- One entry of the in-memory `cache` map (`result` is the stored JSON
object; on the fresh-AI path the `AnalysisResult`, on backfill the
database row's `result_json`). -/
structure CacheEntry where
  result : JValue
  timestamp : Nat

/-- The `metadata` object of a success response (the `timestamp` ISO
string, a pure clock read, is omitted). -/
structure ResponseMeta where
  processingTime : Nat
  cacheSource : String
  model : String
  version : String
deriving DecidableEq, Repr

/-- The HTTP response: a 200 with the spread result payload, `cached`
flag and metadata, or an error status with its message. -/
inductive HandlerResult where
  | ok (payload : JValue) (cached : Bool) (meta : ResponseMeta)
  | err (status : Nat) (error : String)

/-- Cache writes, in program order: `cache.set(...)` on the in-memory
tier, and the attempted `INSERT ... ON CONFLICT DO UPDATE` on the durable
tier (`ok` records whether the query succeeded; a failure is caught and
only logged). -/
inductive CacheEffect where
  | memWrite
  | dbWriteAttempt (ok : Bool)
deriving DecidableEq, Repr

/-- The external state read by one request. `dbLookup` is the outcome of
the `SELECT ... WHERE content_hash = $1 AND expires_at > NOW()` query
(throw, no row, or a `(result_json, created_at)` row); `dbInsert` is the
outcome of the insert. -/
structure HandlerEnv where
  body : JValue
  apiKey : Option String
  startTime : Nat
  now : Nat
  memCache : String → Option CacheEntry
  dbLookup : Except String (Option (JValue × Nat))
  dbInsert : Except String Unit
  gw : Svc.GatewayEnv
  modelCache : String → Option Svc.ModelHealth

/-- What one request produces: the response, the in-memory cache after
the request, and the ordered cache-write effects. -/
structure HandlerOut where
  result : HandlerResult
  memCache : String → Option CacheEntry
  effects : List CacheEffect

/-- JavaScript truthiness of `process.env.OPENROUTER_API_KEY` (unset or
empty fails the `if (!process.env.OPENROUTER_API_KEY)` guard). -/
def apiKeyTruthy (k : Option String) : Bool :=
  match k with
  | none => false
  | some s => if s = "" then false else true

/-- `{...result}`: the spread of an `AnalysisResult` into the response
object, also what `JSON.stringify(result)` serializes for the durable
tier. -/
def resultToJson (r : AnalysisResult) : JValue :=
  .jobj [("missingSkills", .jarr (r.missingSkills.map JValue.jstr)),
         ("steps", .jstr r.steps),
         ("interviewQuestions", .jstr r.interviewQuestions)]

/-- `error.statusCode || 500` (JavaScript truthiness: 0 or `undefined`
fall back to 500). -/
def errStatusOf (sc : Option Nat) : Nat :=
  match sc with
  | some s => if s = 0 then 500 else s
  | none => 500

/-- Whether the durable-tier insert succeeded (its failure is caught,
logged, and otherwise ignored). -/
def insertOk (d : Except String Unit) : Bool :=
  match d with
  | .ok _ => true
  | .error _ => false

/-- The AI call and the persist phase (`index.ts` lines 251-372): map
gateway errors to their HTTP statuses; on success write the in-memory
tier, then attempt the durable insert (its failure is caught and logged),
then respond with `cached: false` and `cacheSource: 'ai'`. -/
def aiPhase (env : HandlerEnv) (vr : AnalysisRequest) (cacheKey : String) :
    HandlerOut :=
  let run := Svc.callAIService env.gw vr.resume vr.jobDescription
    ((env.apiKey).getD "") (Svc.FREE_MODELS.headD "") Svc.DEFAULT_RETRY_CONFIG
    env.modelCache
  match run.result with
  | .error (.aiService _ _ sc _) =>
    ⟨.err (errStatusOf sc) "AI service request failed", env.memCache, []⟩
  | .error (.parse _ _) =>
    ⟨.err 500 "Failed to parse AI response", env.memCache, []⟩
  | .error (.validation _ _) =>
    ⟨.err 500 "AI response validation failed", env.memCache, []⟩
  | .error (.timeout _ _) =>
    ⟨.err 504 "Request timed out", env.memCache, []⟩
  | .error (.generic _) =>
    ⟨.err 500 "Failed to analyze gap", env.memCache, []⟩
  | .ok result =>
    let memCache' := fun k =>
      if k = cacheKey then some ⟨resultToJson result, env.now⟩ else env.memCache k
    let dbOk := insertOk env.dbInsert
    ⟨.ok (resultToJson result) false
      ⟨env.now - env.startTime, "ai", MODEL_LABEL, "1.0.0"⟩,
     memCache', [.memWrite, .dbWriteAttempt dbOk]⟩

/-- The durable-tier lookup (`index.ts` lines 198-249): a fresh row
backfills the in-memory tier and responds `cacheSource: 'database'`;
no row, or a caught store error, falls through to the AI phase. -/
def afterMemMiss (env : HandlerEnv) (vr : AnalysisRequest) (cacheKey : String) :
    HandlerOut :=
  match env.dbLookup with
  | .ok (some rc) =>
    let memCache' := fun k =>
      if k = cacheKey then some ⟨rc.1, rc.2⟩ else env.memCache k
    ⟨.ok rc.1 true ⟨env.now - env.startTime, "database", MODEL_LABEL, "1.0.0"⟩,
     memCache', [.memWrite]⟩
  | .ok none => aiPhase env vr cacheKey
  | .error _ => aiPhase env vr cacheKey

/-- The whole handler: validate, check the API key, compute the
fingerprint, check the in-memory tier (entries older than `CACHE_TTL` are
passed over), then `afterMemMiss`. -/
def handleGapAnalysis (env : HandlerEnv) : HandlerOut :=
  match validateAnalysisRequest env.body with
  | .error _ => ⟨.err 400 "Validation failed", env.memCache, []⟩
  | .ok vr =>
    if apiKeyTruthy env.apiKey then
      let cacheKey := getCacheKey vr.resume vr.jobDescription
      match env.memCache cacheKey with
      | some entry =>
        if env.now - entry.timestamp < CACHE_TTL then
          ⟨.ok entry.result true
            ⟨env.now - env.startTime, "memory", MODEL_LABEL, "1.0.0"⟩,
           env.memCache, []⟩
        else afterMemMiss env vr cacheKey
      | none => afterMemMiss env vr cacheKey
    else
      ⟨.err 500 "AI service is not configured. Please set OPENROUTER_API_KEY.",
       env.memCache, []⟩

/-- The fingerprint a request body is cached under, when it validates:
`getCacheKey` applied to the schema-transformed (sanitized) texts
(`index.ts` lines 158-167). -/
def handlerCacheKey (body : JValue) : Option String :=
  match validateAnalysisRequest body with
  | .ok vr => some (getCacheKey vr.resume vr.jobDescription)
  | .error _ => none

/-- Is this effect a durable-tier write attempt? -/
def isDbWrite : CacheEffect → Bool
  | .dbWriteAttempt _ => true
  | .memWrite => false

/-- Is this effect a fast-tier write? -/
def isMemWrite : CacheEffect → Bool
  | .memWrite => true
  | .dbWriteAttempt _ => false

/-- "The durable tier is written before the fast tier": some durable
write attempt precedes some fast-tier write in the effect order. -/
def durableBeforeFast (effs : List CacheEffect) : Prop :=
  ∃ i j : Fin effs.length, (i : Nat) < (j : Nat) ∧
    isDbWrite (effs.get i) = true ∧ isMemWrite (effs.get j) = true

instance (effs : List CacheEffect) : Decidable (durableBeforeFast effs) := by
  unfold durableBeforeFast
  infer_instance

end Handler

/-! ## Concrete instances used by witnesses and counterexamples -/

/-- A well-formed model response body. -/
def okResponseJson : String :=
  "\x7b\"missingSkills\":[\"x\"],\"steps\":\"- a\",\"interviewQuestions\":\"- q\"\x7d"

/-- The analysis result parsed from `okResponseJson`. -/
def okResult : AnalysisResult := ⟨["x"], "- a", "- q"⟩

/-- Gateway environment in which every model answers HTTP 404. -/
def gw404 : Svc.GatewayEnv :=
  ⟨fun _ _ => .response 404 "Not Found" none, fun _ _ => 0, 7⟩

/-- Gateway environment in which every attempt succeeds with
`okResponseJson`. -/
def gwOk : Svc.GatewayEnv :=
  ⟨fun _ _ => .response 200 "OK" (some okResponseJson), fun _ _ => 0, 7⟩

/-- A valid request body (both fields 12 plain characters). -/
def okBody : JValue :=
  .jobj [("resume", .jstr "aaaaaaaaaaaa"), ("jobDescription", .jstr "bbbbbbbbbbbb")]

/-- Handler environment on the fresh-AI path: valid body, key present,
both cache tiers miss, the AI call succeeds, the durable insert
succeeds. -/
def envFresh : Handler.HandlerEnv :=
  ⟨okBody, some "k", 0, 5, fun _ => none, .ok none, .ok (), gwOk, fun _ => none⟩

/-- Handler environment served from the in-memory tier. -/
def envMemHit : Handler.HandlerEnv :=
  ⟨okBody, some "k", 0, 5, fun _ => some ⟨Handler.resultToJson okResult, 0⟩,
   .ok none, .ok (), gwOk, fun _ => none⟩

/-- A model output accepted by the validator, with four `steps` items and
two `interviewQuestions` items. -/
def c1Accepted : JValue :=
  .jobj [("missingSkills", .jarr []),
         ("steps", .jstr "- s1\n- s2\n- s3\n- s4"),
         ("interviewQuestions", .jstr "- q1\n- q2")]

/-- What the Zod validator extracts from `c1Accepted`. -/
def c1Va : AnalysisResult := ⟨[], "- s1\n- s2\n- s3\n- s4", "- q1\n- q2"⟩

/-- What the rewritten `validateAndFormatResult` returns for
`c1Accepted`. -/
def c1Formatted : AnalysisResult := ⟨[], "- s1\n- s2\n- s3", "- q1\n- q2"⟩

/-- Request bodies that differ as raw text but agree after tag stripping
and trimming. -/
def c10Body1 : JValue :=
  .jobj [("resume", .jstr "<b>hello</b> resume one"),
         ("jobDescription", .jstr "  the job description  ")]

/-- See `c10Body1`. -/
def c10Body2 : JValue :=
  .jobj [("resume", .jstr "hello resume one"),
         ("jobDescription", .jstr "the <i>job</i> description")]

/-! ## Supporting lemmas -/

theorem splitNlC_ne_nil (cs : List Char) : splitNlC cs ≠ [] := by
  induction cs with
  | nil => simp [splitNlC]
  | cons c cs ih =>
    simp only [splitNlC]
    match h : splitNlC cs with
    | [] => exact absurd h ih
    | x :: t =>
      by_cases hc : c = nlChar <;> simp [hc]

theorem splitNlC_no_newline (cs : List Char) :
    ∀ l ∈ splitNlC cs, nlChar ∉ l := by
  induction cs with
  | nil => intro l hl; simp [splitNlC] at hl; simp [hl]
  | cons c cs ih =>
    intro l hl
    simp only [splitNlC] at hl
    cases h : splitNlC cs with
    | nil => exact absurd h (splitNlC_ne_nil cs)
    | cons x t =>
      rw [h] at hl
      have hxmem : x ∈ splitNlC cs := by rw [h]; exact List.mem_cons_self x t
      have htmem : ∀ l' ∈ t, l' ∈ splitNlC cs := by
        intro l' hl'; rw [h]; exact List.mem_cons_of_mem x hl'
      replace hl : l ∈ (if c = nlChar then [] :: x :: t else (c :: x) :: t) := hl
      by_cases hc : c = nlChar
      · rw [if_pos hc] at hl
        rcases List.mem_cons.mp hl with hl | hl
        · simp [hl]
        · rcases List.mem_cons.mp hl with hl | hl
          · exact hl ▸ ih x hxmem
          · exact ih l (htmem l hl)
      · rw [if_neg hc] at hl
        rcases List.mem_cons.mp hl with hl | hl
        · subst hl
          intro hmem
          rcases List.mem_cons.mp hmem with hmem | hmem
          · exact hc hmem.symm
          · exact ih x hxmem hmem
        · exact ih l (htmem l hl)

theorem splitNlC_no_nl_id (cs : List Char) (h : nlChar ∉ cs) :
    splitNlC cs = [cs] := by
  induction cs with
  | nil => rfl
  | cons c cs ih =>
    have hc : c ≠ nlChar := fun hcc => h (hcc ▸ List.mem_cons_self c cs)
    have hcs : nlChar ∉ cs := fun hm => h (List.mem_cons_of_mem c hm)
    simp only [splitNlC, ih hcs, if_neg hc]

theorem splitNlC_append_no_nl (x : List Char) (hx : nlChar ∉ x)
    (ys h : List Char) (t : List (List Char)) (hys : splitNlC ys = h :: t) :
    splitNlC (x ++ ys) = (x ++ h) :: t := by
  induction x with
  | nil => simpa using hys
  | cons c cs ih =>
    have hc : c ≠ nlChar := fun hcc => hx (hcc ▸ List.mem_cons_self c cs)
    have hcs : nlChar ∉ cs := fun hm => hx (List.mem_cons_of_mem c hm)
    simp only [List.cons_append, splitNlC]
    rw [show cs.append ys = cs ++ ys from rfl, ih hcs]
    simp [hc]

/-- Round trip: joining non-empty newline-free pieces and re-splitting
returns the pieces. -/
theorem splitNlC_joinNlC (xss : List (List Char)) (hne : xss ≠ [])
    (hnl : ∀ xs ∈ xss, nlChar ∉ xs) :
    splitNlC (joinNlC xss) = xss := by
  induction xss with
  | nil => exact absurd rfl hne
  | cons x xs ih =>
    match xs with
    | [] =>
      simp only [joinNlC]
      exact splitNlC_no_nl_id x (hnl x (List.mem_cons_self x []))
    | y :: t =>
      have hx : nlChar ∉ x := hnl x (List.mem_cons_self x (y :: t))
      have hrest : ∀ xs ∈ y :: t, nlChar ∉ xs := fun l hl =>
        hnl l (List.mem_cons_of_mem x hl)
      have hih : splitNlC (joinNlC (y :: t)) = y :: t :=
        ih (by simp) hrest
      show splitNlC (x ++ nlChar :: joinNlC (y :: t)) = x :: y :: t
      have hmid : splitNlC (nlChar :: joinNlC (y :: t)) = [] :: y :: t := by
        simp [splitNlC, hih]
      have := splitNlC_append_no_nl x hx (nlChar :: joinNlC (y :: t)) [] (y :: t) hmid
      simpa using this

theorem linesOf_joinNl (ls : List String) (hne : ls ≠ [])
    (hnl : ∀ l ∈ ls, nlChar ∉ l.data) :
    linesOf (joinNl ls) = ls := by
  unfold linesOf joinNl
  have h1 : splitNlC (joinNlC (ls.map String.data)) = ls.map String.data := by
    apply splitNlC_joinNlC
    · simpa using hne
    · intro xs hxs
      rcases List.mem_map.mp hxs with ⟨l, hl, rfl⟩
      exact hnl l hl
  rw [h1, List.map_map]
  have h2 : List.map ((fun cs => String.mk cs) ∘ String.data) ls = List.map id ls :=
    List.map_congr_left (fun l _ => rfl)
  rw [h2, List.map_id]

theorem linesOf_no_newline (s : String) : ∀ l ∈ linesOf s, nlChar ∉ l.data :=
  by
  intro l hl
  rcases List.mem_map.mp hl with ⟨cs, hcs, rfl⟩
  exact splitNlC_no_newline s.data cs hcs

theorem linesOf_ne_nil (s : String) : linesOf s ≠ [] := by
  unfold linesOf
  intro h
  exact splitNlC_ne_nil s.data (List.map_eq_nil_iff.mp h)


namespace Rewritten

theorem truncStep_fold_items_nonempty (lines : List String)
    (hs its : List String) (hits : its ≠ []) :
    lines.foldl truncStep (hs, its) = (hs, its ++ lines.filter isListItemLine) := by
  induction lines generalizing its with
  | nil => simp
  | cons l ls ih =>
    by_cases hl : isListItemLine l
    · rw [List.foldl_cons]
      have hstep : truncStep (hs, its) l = (hs, its ++ [l]) := by
        simp [truncStep, hl]
      rw [hstep, ih (its ++ [l]) (by simp)]
      simp [List.filter_cons, hl]
    · rw [List.foldl_cons]
      have hstep : truncStep (hs, its) l = (hs, its) := by
        simp [truncStep, hl, List.isEmpty_iff, hits]
      rw [hstep, ih its hits]
      simp [List.filter_cons, hl]

theorem truncStep_fold_items_empty (lines : List String) (hs : List String) :
    lines.foldl truncStep (hs, []) =
      (hs ++ lines.takeWhile (fun l => !isListItemLine l),
       lines.filter isListItemLine) := by
  induction lines generalizing hs with
  | nil => simp
  | cons l ls ih =>
    by_cases hl : isListItemLine l
    · rw [List.foldl_cons]
      have hstep : truncStep (hs, []) l = (hs, [l]) := by
        simp [truncStep, hl]
      rw [hstep, truncStep_fold_items_nonempty ls hs [l] (by simp)]
      simp [List.filter_cons, List.takeWhile_cons, hl]
    · rw [List.foldl_cons]
      have hstep : truncStep (hs, []) l = (hs ++ [l], []) := by
        simp [truncStep, hl]
      rw [hstep, ih (hs ++ [l])]
      simp [List.filter_cons, List.takeWhile_cons, hl]

/-- Closed form of the truncation: header lines, then the first `count`
list items, joined by newlines. -/
theorem truncateMarkdownList_eq (text : String) (count : Nat) :
    truncateMarkdownList text count =
      joinNl (headerLinesOf text ++ (listItemsOf text).take count) := by
  show joinNl (((linesOf text).foldl truncStep ([], [])).1 ++
      (((linesOf text).foldl truncStep ([], [])).2).take count) = _
  rw [truncStep_fold_items_empty]
  rfl

theorem takeWhile_append_of_all {α} (p : α → Bool) (H I : List α)
    (h : ∀ l ∈ H, p l = true) :
    (H ++ I).takeWhile p = H ++ I.takeWhile p := by
  induction H with
  | nil => simp
  | cons x xs ih =>
    have hx : p x = true := h x (List.mem_cons_self x xs)
    simp only [List.cons_append, List.takeWhile_cons, hx, if_pos]
    rw [ih (fun l hl => h l (List.mem_cons_of_mem x hl))]

theorem header_mem_not_item (text : String) :
    ∀ l ∈ headerLinesOf text, isListItemLine l = false := by
  intro l hl
  have := List.mem_takeWhile_imp hl
  simpa using this

theorem item_mem_item (text : String) :
    ∀ l ∈ listItemsOf text, isListItemLine l = true := by
  intro l hl
  exact (List.mem_filter.mp hl).2

theorem headerLines_sub (text : String) :
    ∀ l ∈ headerLinesOf text, l ∈ linesOf text := by
  intro l hl
  exact (List.takeWhile_prefix (fun l => !isListItemLine l)).subset hl

theorem listItems_sub (text : String) :
    ∀ l ∈ listItemsOf text, l ∈ linesOf text := by
  intro l hl
  exact (List.mem_filter.mp hl).1

theorem header_take_items_ne_nil (text : String) (count : Nat)
    (hc : 0 < count) :
    headerLinesOf text ++ (listItemsOf text).take count ≠ [] := by
  cases h : linesOf text with
  | nil => exact absurd h (linesOf_ne_nil text)
  | cons l ls =>
    by_cases hl : isListItemLine l
    · have : listItemsOf text = l :: ls.filter isListItemLine := by
        unfold listItemsOf
        rw [h, List.filter_cons, if_pos hl]
      rw [this]
      cases count with
      | zero => exact absurd hc (by simp)
      | succ n => simp
    · have : headerLinesOf text =
          l :: ls.takeWhile (fun l => !isListItemLine l) := by
        unfold headerLinesOf
        rw [h, List.takeWhile_cons]
        simp [hl]
      rw [this]
      simp

theorem linesOf_truncateMarkdownList (text : String) (count : Nat)
    (hc : 0 < count) :
    linesOf (Rewritten.truncateMarkdownList text count) =
      headerLinesOf text ++ (listItemsOf text).take count := by
  rw [Rewritten.truncateMarkdownList_eq]
  apply linesOf_joinNl
  · exact header_take_items_ne_nil text count hc
  · intro l hl
    rcases List.mem_append.mp hl with hmem | hmem
    · exact linesOf_no_newline text l (headerLines_sub text l hmem)
    · exact linesOf_no_newline text l
        (listItems_sub text l ((List.take_subset count _) hmem))

theorem listItemsOf_truncateMarkdownList (text : String) (count : Nat)
    (hc : 0 < count) :
    listItemsOf (Rewritten.truncateMarkdownList text count) =
      (listItemsOf text).take count := by
  unfold listItemsOf
  rw [show (linesOf (Rewritten.truncateMarkdownList text count)).filter isListItemLine
        = listItemsOf (Rewritten.truncateMarkdownList text count) from rfl]
  rw [show listItemsOf (Rewritten.truncateMarkdownList text count)
        = (linesOf (Rewritten.truncateMarkdownList text count)).filter isListItemLine from rfl]
  rw [linesOf_truncateMarkdownList text count hc, List.filter_append]
  have h1 : (headerLinesOf text).filter isListItemLine = [] := by
    rw [List.filter_eq_nil_iff]
    intro a ha
    simp [header_mem_not_item text a ha]
  have h2 : ((listItemsOf text).take count).filter isListItemLine =
      (listItemsOf text).take count := by
    rw [List.filter_eq_self]
    intro a ha
    exact item_mem_item text a ((List.take_subset count _) ha)
  rw [h1, h2, List.nil_append]
  rfl

theorem headerLinesOf_truncateMarkdownList (text : String) (count : Nat)
    (hc : 0 < count) :
    headerLinesOf (Rewritten.truncateMarkdownList text count) =
      headerLinesOf text := by
  unfold headerLinesOf
  rw [show linesOf (Rewritten.truncateMarkdownList text count)
        = headerLinesOf text ++ (listItemsOf text).take count from
      linesOf_truncateMarkdownList text count hc]
  rw [takeWhile_append_of_all _ _ _
      (fun l hl => by simp [header_mem_not_item text l hl])]
  have : ((listItemsOf text).take count).takeWhile (fun l => !isListItemLine l) = [] := by
    cases h : (listItemsOf text).take count with
    | nil => rfl
    | cons x xs =>
      have hx : x ∈ (listItemsOf text).take count := by
        rw [h]; exact List.mem_cons_self x xs
      have : isListItemLine x = true :=
        item_mem_item text x ((List.take_subset count _) hx)
      simp [List.takeWhile_cons, this]
  rw [this, List.append_nil]
  rfl


end Rewritten

/-! ## Claim theorems -/

/-- C7: for every text whose list of markdown items has exactly 5
entries, `truncateMarkdownList text 3` equals the leading header lines
followed by exactly the first 3 of those items, in their original order;
its item list is `(listItemsOf text).take 3`, of length 3, and its header
lines are unchanged. -/
theorem C7_truncation_first_three (text : String)
    (h5 : (listItemsOf text).length = 5) :
    Rewritten.truncateMarkdownList text 3 =
      joinNl (headerLinesOf text ++ (listItemsOf text).take 3) ∧
    listItemsOf (Rewritten.truncateMarkdownList text 3) =
      (listItemsOf text).take 3 ∧
    (listItemsOf (Rewritten.truncateMarkdownList text 3)).length = 3 ∧
    headerLinesOf (Rewritten.truncateMarkdownList text 3) = headerLinesOf text := by
  refine ⟨Rewritten.truncateMarkdownList_eq text 3, ?_, ?_, ?_⟩
  · exact Rewritten.listItemsOf_truncateMarkdownList text 3 (by norm_num)
  · rw [Rewritten.listItemsOf_truncateMarkdownList text 3 (by norm_num),
      List.length_take, h5]
    norm_num
  · exact Rewritten.headerLinesOf_truncateMarkdownList text 3 (by norm_num)

/-- Witness for C7 at a concrete 5-item text. -/
theorem C7_witness :
    (listItemsOf "# Plan\n- a\n- b\n- c\n- d\n- e").length = 5 ∧
    Rewritten.truncateMarkdownList "# Plan\n- a\n- b\n- c\n- d\n- e" 3 =
      "# Plan\n- a\n- b\n- c" :=
  ⟨by decide,
   ((C7_truncation_first_three "# Plan\n- a\n- b\n- c\n- d\n- e" (by decide)).1).trans
     (by decide)⟩

/-- C8: the truncation is idempotent on texts that already contain
exactly 3 list items — a second application returns the same string, and
the items survive the first application unchanged. -/
theorem C8_truncation_idempotent (text : String)
    (h3 : (listItemsOf text).length = 3) :
    Rewritten.truncateMarkdownList (Rewritten.truncateMarkdownList text 3) 3 =
      Rewritten.truncateMarkdownList text 3 ∧
    listItemsOf (Rewritten.truncateMarkdownList text 3) = listItemsOf text := by
  have htake : (listItemsOf text).take 3 = listItemsOf text :=
    List.take_of_length_le (by rw [h3])
  have hitems : listItemsOf (Rewritten.truncateMarkdownList text 3) = listItemsOf text := by
    rw [Rewritten.listItemsOf_truncateMarkdownList text 3 (by norm_num), htake]
  refine ⟨?_, hitems⟩
  rw [Rewritten.truncateMarkdownList_eq (Rewritten.truncateMarkdownList text 3) 3,
    hitems, Rewritten.headerLinesOf_truncateMarkdownList text 3 (by norm_num),
    htake, Rewritten.truncateMarkdownList_eq text 3, htake]

/-- Witness for C8 at a concrete 3-item text. -/
theorem C8_witness :
    (listItemsOf "# Prep\n- q1\n- q2\n- q3").length = 3 ∧
    Rewritten.truncateMarkdownList
      (Rewritten.truncateMarkdownList "# Prep\n- q1\n- q2\n- q3" 3) 3 =
      Rewritten.truncateMarkdownList "# Prep\n- q1\n- q2\n- q3" 3 :=
  ⟨by decide, (C8_truncation_idempotent "# Prep\n- q1\n- q2\n- q3" (by decide)).1⟩

/-- C1 counterexample: a model output accepted by the validator whose
`steps` field has two list items is normalized to two items, not three
("including fewer than 3" fails — there is no padding). -/
theorem C1_counterexample :
    Rewritten.validateAndFormatResult (JValue.jobj
        [("missingSkills", JValue.jarr []),
         ("steps", JValue.jstr "- a\n- b"),
         ("interviewQuestions", JValue.jstr "- q1\n- q2\n- q3")]) =
      .ok ⟨[], "- a\n- b", "- q1\n- q2\n- q3"⟩ ∧
    (listItemsOf "- a\n- b").length = 2 ∧
    (listItemsOf "- a\n- b").length ≠ 3 := by
  refine ⟨by decide, by decide, by decide⟩

/-- C1 (amended): for every model output accepted by the validator, the
normalized `steps` and `interviewQuestions` each contain exactly
`min 3 n` list entries, where `n` is the item count of the corresponding
field of the model output — exactly 3 whenever the model produced 3 or
more, and all of them (unpadded) when it produced fewer. -/
theorem C1_normalized_item_counts (v : JValue) (va r : AnalysisResult)
    (hva : validateAnalysisResult v = .ok va)
    (hr : Rewritten.validateAndFormatResult v = .ok r) :
    (listItemsOf r.steps).length = min 3 (listItemsOf va.steps).length ∧
    (listItemsOf r.interviewQuestions).length =
      min 3 (listItemsOf va.interviewQuestions).length := by
  unfold Rewritten.validateAndFormatResult at hr
  rw [hva] at hr
  cases hr
  constructor
  · show (listItemsOf (Rewritten.truncateMarkdownList va.steps 3)).length = _
    rw [Rewritten.listItemsOf_truncateMarkdownList va.steps 3 (by norm_num),
      List.length_take]
  · show (listItemsOf (Rewritten.truncateMarkdownList va.interviewQuestions 3)).length = _
    rw [Rewritten.listItemsOf_truncateMarkdownList va.interviewQuestions 3 (by norm_num),
      List.length_take]

/-- Witness for the amended C1 at a concrete accepted output with 4 steps
and 2 questions. -/
theorem C1_witness :
    (listItemsOf c1Formatted.steps).length = min 3 (listItemsOf c1Va.steps).length ∧
    (listItemsOf c1Formatted.interviewQuestions).length =
      min 3 (listItemsOf c1Va.interviewQuestions).length :=
  C1_normalized_item_counts c1Accepted c1Va c1Formatted (by decide) (by decide)

/-- In-window behaviour of the in-memory limiter from an entry with `c`
prior requests in the current window. -/
theorem MemRL.run_window (ts : List Nat) (c t0 : Nat) (hc : 1 ≤ c)
    (hts : ∀ t ∈ ts, t - t0 ≤ MemRL.WINDOW_MS) :
    (MemRL.run ts (some ⟨c, t0⟩)).1 =
      List.replicate (min ts.length (MemRL.MAX_REQUESTS - c)) .allowed ++
      List.replicate (ts.length - (MemRL.MAX_REQUESTS - c)) .denied429 := by
  induction ts generalizing c with
  | nil => simp [MemRL.run]
  | cons t ts ih =>
    have hwin : ¬ (MemRL.WINDOW_MS < t - t0) := by
      have := hts t (List.mem_cons_self t ts)
      omega
    have hts' : ∀ u ∈ ts, u - t0 ≤ MemRL.WINDOW_MS := fun u hu =>
      hts u (List.mem_cons_of_mem t hu)
    by_cases hcap : MemRL.MAX_REQUESTS ≤ c
    · have hstep : MemRL.step (some ⟨c, t0⟩) t = (.denied429, some ⟨c, t0⟩) := by
        simp [MemRL.step, hwin, hcap]
      show ((MemRL.step (some ⟨c, t0⟩) t).1 ::
        (MemRL.run ts (MemRL.step (some ⟨c, t0⟩) t).2).1) = _
      rw [hstep]
      show Decision.denied429 :: (MemRL.run ts (some ⟨c, t0⟩)).1 = _
      rw [ih c hc hts']
      have h0 : MemRL.MAX_REQUESTS - c = 0 := by omega
      simp [h0, List.replicate_succ]
    · have hstep : MemRL.step (some ⟨c, t0⟩) t = (.allowed, some ⟨c + 1, t0⟩) := by
        simp [MemRL.step, hwin, hcap]
      show ((MemRL.step (some ⟨c, t0⟩) t).1 ::
        (MemRL.run ts (MemRL.step (some ⟨c, t0⟩) t).2).1) = _
      rw [hstep]
      show Decision.allowed :: (MemRL.run ts (some ⟨c + 1, t0⟩)).1 = _
      rw [ih (c + 1) (by omega) hts']
      have h1 : MemRL.MAX_REQUESTS - c = (MemRL.MAX_REQUESTS - (c + 1)) + 1 := by
        omega
      rw [h1]
      have h2 : min (ts.length + 1) ((MemRL.MAX_REQUESTS - (c + 1)) + 1) =
          min ts.length (MemRL.MAX_REQUESTS - (c + 1)) + 1 := by omega
      have h3 : ts.length + 1 - ((MemRL.MAX_REQUESTS - (c + 1)) + 1) =
          ts.length - (MemRL.MAX_REQUESTS - (c + 1)) := by omega
      rw [List.length_cons, h2, h3, List.replicate_succ, List.cons_append]

/-- C5 counterexample: the Redis-variant middleware computes `retryAfter`
with `Math.round(msBeforeNext / 1000) || 1`, which rounds to the nearest
second, not up: at `msBeforeNext = 1400` it answers 1, while rounding up
to whole seconds would give 2. -/
theorem C5_counterexample :
    RedisRL.middleware ⟨true, .rejected (some 1400)⟩ = .denied429 1 ∧
    (1400 + 1000 - 1) / 1000 = 2 ∧
    RedisRL.middleware ⟨true, .rejected (some 1400)⟩ ≠ .denied429 2 := by
  refine ⟨by decide, by decide, by decide⟩

/-- C5 (amended): from an empty window, requests 1..60 of a client within
a 60-second window are admitted and every further one is denied with
HTTP 429.  In the Redis variant every denial carries
`retryAfter = max 1 (round-to-nearest of msBeforeNext/1000))` — always a
positive integer, never zero, but rounded to the nearest whole second
(with store errors and 0 coerced to 1) rather than up; the in-memory
variant's denial carries no retry hint at all. -/
theorem C5_window_and_retry_after :
    (∀ t0 ts, (∀ t ∈ ts, t - t0 ≤ MemRL.WINDOW_MS) →
      (MemRL.run (t0 :: ts) none).1 =
        List.replicate (min (ts.length + 1) MemRL.MAX_REQUESTS) .allowed ++
        List.replicate (ts.length + 1 - MemRL.MAX_REQUESTS) .denied429) ∧
    (∀ env ra, RedisRL.middleware env = .denied429 ra → 1 ≤ ra) ∧
    (∀ ms, RedisRL.retryAfterOf (some ms) = max 1 ((ms + 500) / 1000)) := by
  refine ⟨?_, ?_, ?_⟩
  · intro t0 ts hts
    show ((MemRL.step none t0).1 :: (MemRL.run ts (MemRL.step none t0).2).1) = _
    have hstep : MemRL.step none t0 = (.allowed, some ⟨1, t0⟩) := rfl
    rw [hstep]
    show MemRL.Decision.allowed :: (MemRL.run ts (some ⟨1, t0⟩)).1 = _
    rw [MemRL.run_window ts 1 t0 (by omega) hts]
    have h2 : min (ts.length + 1) MemRL.MAX_REQUESTS =
        min ts.length (MemRL.MAX_REQUESTS - 1) + 1 := by
      show min (ts.length + 1) 60 = min ts.length (60 - 1) + 1
      omega
    have h3 : ts.length + 1 - MemRL.MAX_REQUESTS =
        ts.length - (MemRL.MAX_REQUESTS - 1) := by
      show ts.length + 1 - 60 = ts.length - (60 - 1)
      omega
    rw [h2, h3, List.replicate_succ, List.cons_append]
  · intro env ra h
    unfold RedisRL.middleware at h
    cases hi : env.initialized with
    | false => rw [hi] at h; simp at h
    | true =>
      rw [hi] at h
      cases hc : env.consume with
      | resolved => rw [hc] at h; simp at h
      | rejected ms =>
        rw [hc] at h
        rw [if_neg (by simp)] at h
        cases h
        cases ms with
        | none => simp [RedisRL.retryAfterOf]
        | some m =>
          simp only [RedisRL.retryAfterOf]
          by_cases hz : RedisRL.jsRoundDiv1000 m = 0 <;> simp [hz] <;> omega
  · intro ms
    simp only [RedisRL.retryAfterOf, RedisRL.jsRoundDiv1000]
    by_cases hz : (ms + 500) / 1000 = 0 <;> simp [hz] <;> omega

/-- Witness for C5: 61 requests at one instant from one client — 60
admitted, the 61st denied; and a concrete denial's retry hint. -/
theorem C5_witness :
    (MemRL.run (0 :: List.replicate 60 0) none).1 =
      List.replicate 60 MemRL.Decision.allowed ++
      List.replicate 1 MemRL.Decision.denied429 ∧
    RedisRL.retryAfterOf (some 400) = max 1 ((400 + 500) / 1000) := by
  constructor
  · have h := C5_window_and_retry_after.1 0 (List.replicate 60 0)
      (by intro t ht; simp at ht; omega)
    simpa using h
  · exact C5_window_and_retry_after.2.2 400

/-- C3 counterexample: with the limiter initialized, a `consume` rejection
that carries no `msBeforeNext` — the library's store-failure rejection —
is handled by the same `catch` as quota exhaustion: the middleware
answers HTTP 429 (`retryAfter` 1) instead of admitting the request. -/
theorem C3_counterexample :
    RedisRL.middleware ⟨true, .rejected none⟩ = .denied429 1 ∧
    RedisRL.middleware ⟨true, .rejected none⟩ ≠ .allowed ∧
    RedisRL.middleware ⟨true, .rejected none⟩ ≠ .allowedDegraded := by
  refine ⟨by decide, by decide, by decide⟩

/-- C3 (amended): the middleware fails open (admits the request, logging
the degradation) only when the module-level rate limiter was never
constructed; a store failure surfacing as a `consume` rejection without
`msBeforeNext` is denied with HTTP 429 and `retryAfter = 1`. -/
theorem C3_fail_open_only_without_limiter (env : RedisRL.Env) :
    (env.initialized = false → RedisRL.middleware env = .allowedDegraded) ∧
    (env.initialized = true → env.consume = .rejected none →
      RedisRL.middleware env = .denied429 1) := by
  constructor
  · intro h
    simp [RedisRL.middleware, h]
  · intro h hc
    simp [RedisRL.middleware, h, hc, RedisRL.retryAfterOf]

/-- Witness for C3: the uninitialized-limiter env fails open; the
store-failure env is denied. -/
theorem C3_witness :
    RedisRL.middleware ⟨false, .rejected (some 5000)⟩ = .allowedDegraded ∧
    RedisRL.middleware ⟨true, .rejected none⟩ = .denied429 1 :=
  ⟨(C3_fail_open_only_without_limiter ⟨false, .rejected (some 5000)⟩).1 rfl,
   (C3_fail_open_only_without_limiter ⟨true, .rejected none⟩).2 rfl rfl⟩

/-- C4 counterexample: two different (resume, jobDescription) pairs whose
pipe-joined concatenations coincide receive the same fingerprint with
certainty — the separator also occurs in the inputs, so distinctness of
pairs is not preserved. -/
theorem C4_counterexample :
    ("aaaaaaaaaa|b", "cccccccccc") ≠ (("aaaaaaaaaa", "b|cccccccccc") : String × String) ∧
    getCacheKey "aaaaaaaaaa|b" "cccccccccc" = getCacheKey "aaaaaaaaaa" "b|cccccccccc" := by
  constructor
  · decide
  · show sha256Hex ("aaaaaaaaaa|b" ++ "|" ++ "cccccccccc") =
      sha256Hex ("aaaaaaaaaa" ++ "|" ++ "b|cccccccccc")
    have h : ("aaaaaaaaaa|b" ++ "|" ++ "cccccccccc" : String) =
        "aaaaaaaaaa" ++ "|" ++ "b|cccccccccc" := by decide
    rw [h]

/-- C4 (amended): the fingerprint is the SHA-256 hex digest of
`resume + '|' + jobDescription`, hence a deterministic function of the
pair (equal pairs always agree, across process restarts), and it
separates two pairs exactly as SHA-256 separates their concatenations;
pairs with equal concatenations (possible because the separator may occur
in the inputs) collide with certainty. -/
theorem C4_fingerprint_deterministic (r1 j1 r2 j2 : String) :
    getCacheKey r1 j1 = sha256Hex (r1 ++ "|" ++ j1) ∧
    (r1 = r2 → j1 = j2 → getCacheKey r1 j1 = getCacheKey r2 j2) ∧
    (r1 ++ "|" ++ j1 = r2 ++ "|" ++ j2 →
      getCacheKey r1 j1 = getCacheKey r2 j2) := by
  refine ⟨rfl, ?_, ?_⟩
  · intro hr hj
    rw [hr, hj]
  · intro h
    show sha256Hex (r1 ++ "|" ++ j1) = sha256Hex (r2 ++ "|" ++ j2)
    rw [h]

/-- Witness for C4: determinism applied at a concrete pair, and the
concatenation congruence at a concrete colliding pair. -/
theorem C4_witness :
    getCacheKey "hello sir!" "dear hiring manager" =
      getCacheKey "hello sir!" "dear hiring manager" ∧
    getCacheKey "x|y" "zzzz" = getCacheKey "x" "y|zzzz" :=
  ⟨(C4_fingerprint_deterministic "hello sir!" "dear hiring manager"
      "hello sir!" "dear hiring manager").2.1 rfl rfl,
   (C4_fingerprint_deterministic "x|y" "zzzz" "x" "y|zzzz").2.2 (by decide)⟩

/-- A model whose first attempt observes HTTP 404 consumes exactly one
attempt: the status is classified non-retryable, so the per-model loop
rethrows immediately instead of using its remaining attempts. -/
theorem Svc.runModel_404 (env : Svc.GatewayEnv) (m st : String)
    (body : Option String) (config : Svc.RetryConfig)
    (hmax : 1 ≤ config.maxAttempts)
    (hout : env.outcome m 0 = .response 404 st body)
    (helap : env.elapsedAt m 0 < config.timeoutMs) :
    Svc.callAIServiceWithModel env m config =
      (.error (.aiService ("AI service returned " ++ toString 404 ++ ": " ++ st)
        "AI_SERVICE_ERROR" (some 404) false), 1) := by
  unfold Svc.callAIServiceWithModel
  cases hma : config.maxAttempts with
  | zero => omega
  | succ n =>
    have h1 : ¬ (config.timeoutMs ≤ env.elapsedAt m 0) := by omega
    have h2 : ¬ (200 ≤ 404 ∧ 404 < 300) := by omega
    have h3 : Svc.isRetryableError none (some 404) = false := by decide
    simp only [Svc.runModelGo, h1, if_false, Svc.runAttemptBody, hout, h2, h3,
      Svc.SvcError.nonRetryableAI, Bool.not_false, if_true]

/-- One-step unfolding of the fallback loop on a successful model. -/
theorem Svc.runModels_cons_ok (env : Svc.GatewayEnv) (config : Svc.RetryConfig)
    (x : String) (xs : List String) (cache : String → Option Svc.ModelHealth)
    (le : Option Svc.SvcError) (tr : List (String × Nat))
    (r : AnalysisResult) (n : Nat)
    (h : Svc.callAIServiceWithModel env x config = (.ok r, n)) :
    Svc.runModels env config (x :: xs) cache le tr =
      ⟨.ok r, Svc.markModelStatus cache x true env.now, tr ++ [(x, n)]⟩ := by
  rw [show Svc.runModels env config (x :: xs) cache le tr =
      (match Svc.callAIServiceWithModel env x config with
       | (.ok r, n) => ⟨.ok r, Svc.markModelStatus cache x true env.now, tr ++ [(x, n)]⟩
       | (.error e, n) =>
         Svc.runModels env config xs
           (if e.aiStatusCode = some 404 then Svc.markModelStatus cache x false env.now
            else if e.nonRetryableAI then Svc.markModelStatus cache x false env.now
            else cache)
           (some e) (tr ++ [(x, n)])) from rfl, h]

/-- One-step unfolding of the fallback loop on a failing model. -/
theorem Svc.runModels_cons_error (env : Svc.GatewayEnv) (config : Svc.RetryConfig)
    (x : String) (xs : List String) (cache : String → Option Svc.ModelHealth)
    (le : Option Svc.SvcError) (tr : List (String × Nat))
    (e : Svc.SvcError) (n : Nat)
    (h : Svc.callAIServiceWithModel env x config = (.error e, n)) :
    Svc.runModels env config (x :: xs) cache le tr =
      Svc.runModels env config xs
        (if e.aiStatusCode = some 404 then Svc.markModelStatus cache x false env.now
         else if e.nonRetryableAI then Svc.markModelStatus cache x false env.now
         else cache)
        (some e) (tr ++ [(x, n)]) := by
  rw [show Svc.runModels env config (x :: xs) cache le tr =
      (match Svc.callAIServiceWithModel env x config with
       | (.ok r, n) => ⟨.ok r, Svc.markModelStatus cache x true env.now, tr ++ [(x, n)]⟩
       | (.error e, n) =>
         Svc.runModels env config xs
           (if e.aiStatusCode = some 404 then Svc.markModelStatus cache x false env.now
            else if e.nonRetryableAI then Svc.markModelStatus cache x false env.now
            else cache)
           (some e) (tr ++ [(x, n)])) from rfl, h]

/-- The trace of the model-fallback loop only ever grows the accumulator. -/
theorem Svc.runModels_trace_extends (env : Svc.GatewayEnv)
    (config : Svc.RetryConfig) (xs : List String)
    (cache : String → Option Svc.ModelHealth) (le : Option Svc.SvcError)
    (tr : List (String × Nat)) :
    ∃ ext, (Svc.runModels env config xs cache le tr).trace = tr ++ ext := by
  induction xs generalizing cache le tr with
  | nil => exact ⟨[], by simp [Svc.runModels]⟩
  | cons x xs ih =>
    rcases hr : Svc.callAIServiceWithModel env x config with ⟨res, n⟩
    cases res with
    | ok r =>
      exact ⟨[(x, n)], by rw [Svc.runModels_cons_ok env config x xs cache le tr r n hr]⟩
    | error e =>
      rw [Svc.runModels_cons_error env config x xs cache le tr e n hr]
      obtain ⟨ext, hext⟩ := ih
        (if e.aiStatusCode = some 404 then Svc.markModelStatus cache x false env.now
         else if e.nonRetryableAI then Svc.markModelStatus cache x false env.now
         else cache)
        (some e) (tr ++ [(x, n)])
      refine ⟨[(x, n)] ++ ext, ?_⟩
      rw [hext, List.append_assoc]

/-- The first model in the loop always heads the appended trace. -/
theorem Svc.runModels_head_trace (env : Svc.GatewayEnv)
    (config : Svc.RetryConfig) (x : String) (xs : List String)
    (cache : String → Option Svc.ModelHealth) (le : Option Svc.SvcError)
    (tr : List (String × Nat)) :
    ∃ n ext,
      (Svc.runModels env config (x :: xs) cache le tr).trace =
        tr ++ (x, n) :: ext := by
  rcases hr : Svc.callAIServiceWithModel env x config with ⟨res, n⟩
  cases res with
  | ok r =>
    exact ⟨n, [], by rw [Svc.runModels_cons_ok env config x xs cache le tr r n hr]⟩
  | error e =>
    rw [Svc.runModels_cons_error env config x xs cache le tr e n hr]
    obtain ⟨ext, hext⟩ := Svc.runModels_trace_extends env config xs
      (if e.aiStatusCode = some 404 then Svc.markModelStatus cache x false env.now
       else if e.nonRetryableAI then Svc.markModelStatus cache x false env.now
       else cache)
      (some e) (tr ++ [(x, n)])
    refine ⟨n, ext, ?_⟩
    rw [hext, List.append_assoc]
    rfl

/-- The fallback loop never touches the health record of a model that is
not in its candidate list. -/
theorem Svc.runModels_cache_preserved (env : Svc.GatewayEnv)
    (config : Svc.RetryConfig) (xs : List String)
    (cache : String → Option Svc.ModelHealth) (le : Option Svc.SvcError)
    (tr : List (String × Nat)) (m : String) (hm : m ∉ xs) :
    (Svc.runModels env config xs cache le tr).modelCache m = cache m := by
  induction xs generalizing cache le tr with
  | nil => simp [Svc.runModels]
  | cons x xs ih =>
    have hmx : m ≠ x := fun h => hm (h ▸ List.mem_cons_self x xs)
    have hmxs : m ∉ xs := fun h => hm (List.mem_cons_of_mem x h)
    rcases hr : Svc.callAIServiceWithModel env x config with ⟨res, n⟩
    cases res with
    | ok r =>
      rw [Svc.runModels_cons_ok env config x xs cache le tr r n hr]
      simp [Svc.markModelStatus, hmx]
    | error e =>
      rw [Svc.runModels_cons_error env config x xs cache le tr e n hr]
      rw [ih _ (some e) (tr ++ [(x, n)]) hmxs]
      by_cases h4 : e.aiStatusCode = some 404
      · simp [h4, Svc.markModelStatus, hmx]
      · by_cases h5 : e.nonRetryableAI <;>
          simp [h4, h5, Svc.markModelStatus, hmx]

/-- C6: if the first candidate model's first attempt returns HTTP 404,
the gateway spends exactly one of its `maxAttempts` attempts on that
model (one trace entry `(m, 1)` with `1 < maxAttempts`), records the
model as not working, and immediately attempts the next candidate `r`
(the next trace entry belongs to `r`). -/
theorem C6_404_skips_to_next_model (env : Svc.GatewayEnv)
    (config : Svc.RetryConfig) (cache0 : String → Option Svc.ModelHealth)
    (preferred m r : String) (rest : List String) (st : String)
    (body : Option String) (resume jd key : String)
    (hmodels : Svc.getModelsToTry cache0 preferred = m :: r :: rest)
    (hout : env.outcome m 0 = .response 404 st body)
    (helap : env.elapsedAt m 0 < config.timeoutMs)
    (hmax : 2 ≤ config.maxAttempts)
    (hmr : m ≠ r) (hmrest : m ∉ rest) :
    ∃ n ext,
      (Svc.callAIService env resume jd key preferred config cache0).trace =
        (m, 1) :: (r, n) :: ext ∧
      (Svc.callAIService env resume jd key preferred config cache0).modelCache m =
        some ⟨false, env.now⟩ ∧
      1 < config.maxAttempts := by
  unfold Svc.callAIService
  rw [hmodels]
  have h404 := Svc.runModel_404 env m st body config (by omega) hout helap
  have hstep := Svc.runModels_cons_error env config m (r :: rest) cache0 none []
    (.aiService ("AI service returned " ++ toString 404 ++ ": " ++ st)
      "AI_SERVICE_ERROR" (some 404) false) 1 h404
  rw [show Svc.SvcError.aiStatusCode
      (.aiService ("AI service returned " ++ toString 404 ++ ": " ++ st)
        "AI_SERVICE_ERROR" (some 404) false) = some 404 from rfl] at hstep
  rw [if_pos rfl] at hstep
  rw [hstep]
  obtain ⟨n, ext, hext⟩ := Svc.runModels_head_trace env config r rest
    (Svc.markModelStatus cache0 m false env.now)
    (some (.aiService ("AI service returned " ++ toString 404 ++ ": " ++ st)
      "AI_SERVICE_ERROR" (some 404) false))
    ([] ++ [(m, 1)])
  refine ⟨n, ext, ?_, ?_, by omega⟩
  · rw [hext]
    rfl
  · rw [Svc.runModels_cache_preserved env config (r :: rest) _ _ _ m
      (by simp [hmr, hmrest])]
    simp [Svc.markModelStatus]

/-- Witness for C6: every model 404s; the gateway's trace is one attempt
per candidate, and the first candidate is marked unavailable. -/
theorem C6_witness :
    ∃ n ext,
      (Svc.callAIService gw404 "resume txt" "jd txt" "key"
          (Svc.FREE_MODELS.headD "") Svc.DEFAULT_RETRY_CONFIG
          (fun _ => none)).trace =
        ("arcee-ai/trinity-large-preview:free", 1) ::
          ("stepfun/step-3.5-flash:free", n) :: ext ∧
      (Svc.callAIService gw404 "resume txt" "jd txt" "key"
          (Svc.FREE_MODELS.headD "") Svc.DEFAULT_RETRY_CONFIG
          (fun _ => none)).modelCache "arcee-ai/trinity-large-preview:free" =
        some ⟨false, gw404.now⟩ ∧
      1 < Svc.DEFAULT_RETRY_CONFIG.maxAttempts :=
  C6_404_skips_to_next_model gw404 Svc.DEFAULT_RETRY_CONFIG (fun _ => none)
    (Svc.FREE_MODELS.headD "") "arcee-ai/trinity-large-preview:free"
    "stepfun/step-3.5-flash:free"
    ["upstage/solar-pro-3:free", "liquid/lfm-2.5-1.2b-thinking:free"]
    "Not Found" none "resume txt" "jd txt" "key"
    (by decide) (by decide) (by decide) (by decide) (by decide) (by decide)

/-- C9: every success response of `POST /api/gap-analysis` — memory hit,
database hit, or fresh AI result — reports
`metadata.model = 'meta-llama/llama-3.1-8b-instruct:free'`, a fixed
label independent of the model that actually answered; and that label is
not one of the gateway's candidate models. -/
theorem C9_model_metadata (env : Handler.HandlerEnv) (p : JValue) (c : Bool)
    (meta : Handler.ResponseMeta)
    (h : (Handler.handleGapAnalysis env).result = .ok p c meta) :
    meta.model = Handler.MODEL_LABEL ∧ Handler.MODEL_LABEL ∉ Svc.FREE_MODELS := by
  refine ⟨?_, by decide⟩
  rcases hout : Handler.handleGapAnalysis env with ⟨res, mc, effs⟩
  rw [hout] at h
  replace h : res = .ok p c meta := h
  unfold Handler.handleGapAnalysis Handler.afterMemMiss Handler.aiPhase at hout
  repeat' split at hout
  all_goals try dsimp only at hout
  all_goals try (repeat' split at hout)
  all_goals (injection hout with h1 h2 h3; subst h1)
  all_goals try (exact absurd h (fun hh => Handler.HandlerResult.noConfusion hh))
  all_goals (injection h with h4 h5 h6)
  all_goals (rw [← h6])

/-- Witness for C9 at the memory-hit environment. -/
theorem C9_witness :
    (Handler.handleGapAnalysis envMemHit).result =
      .ok (Handler.resultToJson okResult) true
        ⟨5, "memory", Handler.MODEL_LABEL, "1.0.0"⟩ ∧
    (⟨5, "memory", Handler.MODEL_LABEL, "1.0.0"⟩ : Handler.ResponseMeta).model =
      Handler.MODEL_LABEL :=
  ⟨rfl,
   (C9_model_metadata envMemHit (Handler.resultToJson okResult) true
      ⟨5, "memory", Handler.MODEL_LABEL, "1.0.0"⟩ rfl).1⟩

/-- C2 counterexample: on a fresh-AI request the handler's cache writes
are the in-memory `cache.set` first and the durable insert second — the
durable tier is not written before the fast tier. -/
theorem C2_counterexample :
    (Handler.handleGapAnalysis envFresh).effects =
      [.memWrite, .dbWriteAttempt true] ∧
    ¬ Handler.durableBeforeFast (Handler.handleGapAnalysis envFresh).effects := by
  constructor
  · decide
  · decide

/-- C2 (amended): on every request that reaches the AI gateway and gets a
fresh result, the handler writes the fast (in-memory) tier first and then
attempts the durable (database) write, and the response is fully
determined by the AI result and the clock — so a durable-write failure
(the in-memory write cannot fail) never changes the response already
computed. -/
theorem C2_persist_order_and_response (env : Handler.HandlerEnv)
    (vr : AnalysisRequest) (result : AnalysisResult)
    (hv : validateAnalysisRequest env.body = .ok vr)
    (hk : Handler.apiKeyTruthy env.apiKey = true)
    (hmem : ∀ e, env.memCache (getCacheKey vr.resume vr.jobDescription) = some e →
      ¬ (env.now - e.timestamp < Handler.CACHE_TTL))
    (hdb : env.dbLookup = .ok none ∨ ∃ s, env.dbLookup = .error s)
    (hai : (Svc.callAIService env.gw vr.resume vr.jobDescription
        ((env.apiKey).getD "") (Svc.FREE_MODELS.headD "") Svc.DEFAULT_RETRY_CONFIG
        env.modelCache).result = .ok result) :
    (Handler.handleGapAnalysis env).effects =
      [.memWrite, .dbWriteAttempt (Handler.insertOk env.dbInsert)] ∧
    (Handler.handleGapAnalysis env).result =
      .ok (Handler.resultToJson result) false
        ⟨env.now - env.startTime, "ai", Handler.MODEL_LABEL, "1.0.0"⟩ := by
  have hcall : Handler.handleGapAnalysis env =
      Handler.afterMemMiss env vr (getCacheKey vr.resume vr.jobDescription) := by
    unfold Handler.handleGapAnalysis
    rw [hv]
    dsimp only
    rw [hk, if_pos rfl]
    cases hmc : env.memCache (getCacheKey vr.resume vr.jobDescription) with
    | none => rfl
    | some e =>
      dsimp only
      rw [if_neg (hmem e hmc)]
  have hafter : Handler.afterMemMiss env vr (getCacheKey vr.resume vr.jobDescription) =
      Handler.aiPhase env vr (getCacheKey vr.resume vr.jobDescription) := by
    unfold Handler.afterMemMiss
    rcases hdb with h | ⟨s, h⟩ <;> rw [h]
  have hphase : Handler.aiPhase env vr (getCacheKey vr.resume vr.jobDescription) =
      ⟨.ok (Handler.resultToJson result) false
        ⟨env.now - env.startTime, "ai", Handler.MODEL_LABEL, "1.0.0"⟩,
       fun k => if k = getCacheKey vr.resume vr.jobDescription then
         some ⟨Handler.resultToJson result, env.now⟩ else env.memCache k,
       [.memWrite, .dbWriteAttempt (Handler.insertOk env.dbInsert)]⟩ := by
    unfold Handler.aiPhase
    dsimp only
    rw [hai]
  rw [hcall, hafter, hphase]
  exact ⟨rfl, rfl⟩

/-- Witness for the amended C2 at the fresh-AI environment. -/
theorem C2_witness :
    (Handler.handleGapAnalysis envFresh).effects =
      [.memWrite, .dbWriteAttempt (Handler.insertOk envFresh.dbInsert)] ∧
    (Handler.handleGapAnalysis envFresh).result =
      .ok (Handler.resultToJson okResult) false
        ⟨envFresh.now - envFresh.startTime, "ai", Handler.MODEL_LABEL, "1.0.0"⟩ :=
  C2_persist_order_and_response envFresh ⟨"aaaaaaaaaaaa", "bbbbbbbbbbbb"⟩ okResult
    (by decide) (by decide)
    (by intro e he; exact absurd he (by simp [envFresh]))
    (Or.inl rfl) (by decide)

/-- A field check that succeeds returns the sanitized form of the raw
string field. -/
theorem parseRequestField_ok (v : JValue) (name : String) (maxLen : Nat)
    (s : String) (h : parseRequestField v name maxLen = .ok s) :
    ∃ raw, v.getField name = some (.jstr raw) ∧ s = sanitizeInput raw := by
  unfold parseRequestField at h
  cases hg : v.getField name with
  | none => rw [hg] at h; exact absurd h (by simp)
  | some jv =>
    rw [hg] at h
    cases jv
    case jstr raw =>
      refine ⟨raw, rfl, ?_⟩
      dsimp only at h
      repeat' split at h
      all_goals
        first
        | exact absurd h (fun hh => Except.noConfusion hh)
        | (injection h with h1; exact h1.symm)
    all_goals exact absurd h (fun hh => Except.noConfusion hh)

/-- A validated request is the sanitized form of the body's raw string
fields. -/
theorem validateAnalysisRequest_ok (v : JValue) (vr : AnalysisRequest)
    (h : validateAnalysisRequest v = .ok vr) :
    ∃ r j, v.getField "resume" = some (.jstr r) ∧
      v.getField "jobDescription" = some (.jstr j) ∧
      vr.resume = sanitizeInput r ∧ vr.jobDescription = sanitizeInput j := by
  unfold validateAnalysisRequest at h
  cases v
  case jobj fields =>
    cases h1 : parseRequestField (.jobj fields) "resume" MAX_RESUME_LENGTH with
    | ok r' =>
      cases h2 : parseRequestField (.jobj fields) "jobDescription"
          MAX_JOB_DESCRIPTION_LENGTH with
      | ok j' =>
        rw [h1, h2] at h
        injection h with h3
        obtain ⟨raw1, hg1, hs1⟩ := parseRequestField_ok _ _ _ _ h1
        obtain ⟨raw2, hg2, hs2⟩ := parseRequestField_ok _ _ _ _ h2
        refine ⟨raw1, raw2, hg1, hg2, ?_, ?_⟩
        · rw [← h3, ← hs1]
        · rw [← h3, ← hs2]
      | error e2 => rw [h1, h2] at h; exact absurd h (by simp)
    | error e1 =>
      cases h2 : parseRequestField (.jobj fields) "jobDescription"
          MAX_JOB_DESCRIPTION_LENGTH <;>
        rw [h1, h2] at h <;> exact absurd h (by simp)
  all_goals exact absurd h (by simp)

/-- C10: the cache fingerprint is computed over the sanitized, trimmed
texts, not the raw request bodies — two bodies whose `resume` and
`jobDescription` agree after HTML-tag stripping and trimming validate to
the same texts and therefore map to the same fingerprint (hence one cache
entry); the key is `getCacheKey` of the sanitized fields. -/
theorem C10_key_over_sanitized (b1 b2 : JValue) (r1 j1 r2 j2 : String)
    (v1 v2 : AnalysisRequest)
    (hb1r : b1.getField "resume" = some (.jstr r1))
    (hb1j : b1.getField "jobDescription" = some (.jstr j1))
    (hb2r : b2.getField "resume" = some (.jstr r2))
    (hb2j : b2.getField "jobDescription" = some (.jstr j2))
    (hs1 : sanitizeInput r1 = sanitizeInput r2)
    (hs2 : sanitizeInput j1 = sanitizeInput j2)
    (hv1 : validateAnalysisRequest b1 = .ok v1)
    (hv2 : validateAnalysisRequest b2 = .ok v2) :
    Handler.handlerCacheKey b1 = Handler.handlerCacheKey b2 ∧
    Handler.handlerCacheKey b1 =
      some (getCacheKey (sanitizeInput r1) (sanitizeInput j1)) := by
  obtain ⟨ra, ja, hga, hgja, hsa, hsja⟩ := validateAnalysisRequest_ok b1 v1 hv1
  obtain ⟨rb, jb, hgb, hgjb, hsb, hsjb⟩ := validateAnalysisRequest_ok b2 v2 hv2
  have hra : ra = r1 := by
    have := hga.symm.trans hb1r
    injection this with h'
    injection h'
  have hja : ja = j1 := by
    have := hgja.symm.trans hb1j
    injection this with h'
    injection h'
  have hrb : rb = r2 := by
    have := hgb.symm.trans hb2r
    injection this with h'
    injection h'
  have hjb : jb = j2 := by
    have := hgjb.symm.trans hb2j
    injection this with h'
    injection h'
  have hk1 : Handler.handlerCacheKey b1 =
      some (getCacheKey (sanitizeInput r1) (sanitizeInput j1)) := by
    unfold Handler.handlerCacheKey
    rw [hv1]
    dsimp only
    rw [hsa, hsja, hra, hja]
  have hk2 : Handler.handlerCacheKey b2 =
      some (getCacheKey (sanitizeInput r2) (sanitizeInput j2)) := by
    unfold Handler.handlerCacheKey
    rw [hv2]
    dsimp only
    rw [hsb, hsjb, hrb, hjb]
  refine ⟨?_, hk1⟩
  rw [hk1, hk2, hs1, hs2]

/-- Witness for C10: two raw bodies that differ only by markup and
surrounding whitespace share the fingerprint. -/
theorem C10_witness :
    Handler.handlerCacheKey c10Body1 = Handler.handlerCacheKey c10Body2 ∧
    Handler.handlerCacheKey c10Body1 =
      some (getCacheKey (sanitizeInput "<b>hello</b> resume one")
        (sanitizeInput "  the job description  ")) :=
  C10_key_over_sanitized c10Body1 c10Body2
    "<b>hello</b> resume one" "  the job description  "
    "hello resume one" "the <i>job</i> description"
    ⟨"hello resume one", "the job description"⟩
    ⟨"hello resume one", "the job description"⟩
    rfl rfl rfl rfl
    (by decide) (by decide) (by decide) (by decide)

end CareerGap
